import Mathlib

/-!
# Wiegand frame encoder and transmitter

A shallow embedding of `backend/native/wiegand_tx.c`.

* A bit buffer (`uint8_t[]` together with its used length) is a `List Nat`;
  the list holds exactly the cells written so far.
* A C string is the `List Char` of its characters before the terminating NUL.
* `die(m)` ends the process, so every function that may call it returns an
  `Except exit_t _`, and `die m` is the error `exit_t.die m`.
* `int` values are `Int`, `uint64_t` and `unsigned int` values are `Nat`.
* The functions named `..._mem` are the same functions with every store made
  into an array of a given number of cells: a store at or beyond that number
  ends them with `exit_t.out_of_bounds`.
-/

namespace WiegandTx

/-- The `parity_mode_t` enumeration. -/
inductive parity_mode_t
  | PAR_STD
  | PAR_NONE
  | PAR_WHOLE_EVEN
  | PAR_WHOLE_ODD
  deriving DecidableEq

open parity_mode_t

/-- How a run ends before reaching `return 0`: `usage(argv[0]); return 2;`,
`die(m)` (message `m` on the error stream, exit status 2), an operation the C
language leaves undefined (a 64-bit shift by 64 or more), or a store outside
the array it is made into. -/
inductive exit_t
  | usage
  | die (m : String)
  | undefined
  | out_of_bounds
  deriving DecidableEq

deriving instance DecidableEq for Except

/-- The call `die(m)`. -/
def die {α : Type} (m : String) : Except exit_t α := Except.error (exit_t.die m)

/-- The function `parity_even_bits(b, n)`: true when the number of non-zero
cells among `b[0..n-1]` is even. -/
def parity_even_bits (b : List Nat) (n : Nat) : Bool :=
  ((b.take n).countP (fun x => x ≠ 0)) % 2 == 0

/-- The test `ok` of the hex loop of `parse_raw_bits`. -/
def is_hex (q : Char) : Bool :=
  (Char.toNat '0' ≤ q.toNat && q.toNat ≤ Char.toNat '9')
    || (Char.toNat 'a' ≤ q.toNat && q.toNat ≤ Char.toNat 'f')
    || (Char.toNat 'A' ≤ q.toNat && q.toNat ≤ Char.toNat 'F')

/-- The value `v` of the hex loop of `parse_raw_bits`. -/
def hex_val (q : Char) : Nat :=
  if Char.toNat '0' ≤ q.toNat && q.toNat ≤ Char.toNat '9' then q.toNat - Char.toNat '0'
  else if Char.toNat 'a' ≤ q.toNat && q.toNat ≤ Char.toNat 'f' then 10 + q.toNat - Char.toNat 'a'
  else 10 + q.toNat - Char.toNat 'A'

/-- The hex loop of `parse_raw_bits` (`for (q = p; *q; ++q)`): `bits` holds the
cells written so far, so `n` is `bits.length`. -/
def parse_hex_loop (max : Nat) : List Char → List Nat → Except exit_t (List Nat)
  | [], bits => Except.ok bits
  | q :: rest, bits =>
    if !is_hex q then die "bad hex in raw"
    else if bits.length + 4 > max then die "raw hex too long"
    else
      let v := hex_val q
      parse_hex_loop max rest
        (bits ++ [if v &&& 8 ≠ 0 then 1 else 0, if v &&& 4 ≠ 0 then 1 else 0,
                  if v &&& 2 ≠ 0 then 1 else 0, if v &&& 1 ≠ 0 then 1 else 0])

/-- The binary loop of `parse_raw_bits` (`for (p = raw; *p; ++p)`). -/
def parse_bin_loop (max : Nat) : List Char → List Nat → Except exit_t (List Nat)
  | [], bits => Except.ok bits
  | p :: rest, bits =>
    if p = '0' ∨ p = '1' then
      if bits.length ≥ max then die "raw bits too long"
      else parse_bin_loop max rest (bits ++ [if p = '1' then 1 else 0])
    else if p = ' ' ∨ p = '_' then parse_bin_loop max rest bits
    else die "invalid char in raw bits"

/-- The function `parse_raw_bits(raw, bits, max)`; `none` is the null pointer.
The result is the list of the `n` cells written. -/
def parse_raw_bits (raw : Option (List Char)) (max : Nat) : Except exit_t (List Nat) :=
  match raw with
  | none => Except.ok []
  | some ('0' :: 'x' :: p) =>
    if p = [] then die "empty hex" else parse_hex_loop max p []
  | some ('0' :: 'X' :: p) =>
    if p = [] then die "empty hex" else parse_hex_loop max p []
  | some s => parse_bin_loop max s []

/-- The function `compose_fields(f, fb, c, cb, out, max)`, for widths
`fb, cb ≥ 0` (the only ones `main` passes). Cell `i` is `(f >> (fb-1-i)) & 1`
and cell `fb+i` is `(c >> (cb-1-i)) & 1`. -/
def compose_fields (f fb c cb max : Nat) : Except exit_t (List Nat) :=
  if fb + cb > max then die "buffer small"
  else Except.ok
    ((List.range fb).map (fun i => (f >>> (fb - 1 - i)) &&& 1)
      ++ (List.range cb).map (fun i => (c >>> (cb - 1 - i)) &&& 1))

/-- The function `apply_parity(data, dlen, mode, frame, max)`, with
`dlen = data.length`. -/
def apply_parity (data : List Nat) (mode : parity_mode_t) (max : Nat) :
    Except exit_t (List Nat) :=
  let dlen := data.length
  if mode = PAR_NONE then
    if dlen > max then die "buffer small" else Except.ok data
  else if mode = PAR_WHOLE_EVEN ∨ mode = PAR_WHOLE_ODD then
    if dlen + 1 > max then die "buffer small"
    else
      let pe := parity_even_bits data dlen
      Except.ok (data ++ [if mode = PAR_WHOLE_EVEN then (if pe then 1 else 0)
                          else (if pe then 0 else 1)])
  else
    let left := dlen / 2
    let right := dlen - left
    if dlen + 2 > max then die "buffer small"
    else
      let pe_left := parity_even_bits data left
      let pe_right := parity_even_bits (data.drop left) right
      Except.ok ([if pe_left then 1 else 0] ++ data ++ [if pe_right then 0 else 1])

/-- The structure `cfg_t`; `raw_bits = none` is the null pointer. -/
structure cfg_t where
  chip_name : String
  d0_line : Nat
  d1_line : Nat
  frame_bits : Int
  facility_bits : Int
  card_bits : Int
  format_bits : Int
  facility : Nat
  card : Nat
  raw_bits : Option (List Char)
  parity : parity_mode_t
  pulse_us : Int
  space_us : Int

/-- The initial value of `cfg` in `main`; `(unsigned int)-1` is `2^32 - 1`. -/
def cfg_init : cfg_t :=
  { chip_name := "gpiochip0", d0_line := 2 ^ 32 - 1, d1_line := 2 ^ 32 - 1,
    frame_bits := 0, facility_bits := -1, card_bits := -1, format_bits := 26,
    facility := 0, card := 0, raw_bits := none, parity := PAR_STD,
    pulse_us := 50, space_us := 1000 }

/-- The cast `(int)u` of an `unsigned int`. -/
def int_of_unsigned (u : Nat) : Int :=
  if u % 2 ^ 32 < 2 ^ 31 then ((u % 2 ^ 32 : Nat) : Int) else ((u % 2 ^ 32 : Nat) : Int) - 2 ^ 32

/-- Lines 146-148 of `main`: the line offsets and the timing. -/
def check_cfg (cfg : cfg_t) : Except exit_t Unit :=
  if int_of_unsigned cfg.d0_line < 0 ∨ int_of_unsigned cfg.d1_line < 0 then
    Except.error exit_t.usage
  else if cfg.pulse_us < 20 ∨ cfg.pulse_us > 5000 then die "pulse-us out of range"
  else if cfg.space_us < cfg.pulse_us then die "space-us must be >= pulse-us"
  else Except.ok ()

/-- Lines 156-165 of `main`: the widths `fb`, `cb` after the preset `switch`
(which has no `default:` branch). -/
def resolve_widths (cfg : cfg_t) : Int × Int :=
  let N := cfg.format_bits
  let fb := cfg.facility_bits
  let cb := cfg.card_bits
  if fb < 0 ∨ cb < 0 then
    if N = 26 then (8, 16)
    else if N = 34 then (16, 16)
    else if N = 37 then (18, 16)
    else if N = 35 then (19, 16)
    else if N = 48 then (16, 30)
    else (fb, cb)
  else (fb, cb)

/-- Lines 150-176 of `main`: the data bits, from the raw literal or from the
fields. `1ULL << fb` is undefined in C for `fb ≥ 64`, and `||` evaluates its
second operand only when the first is false; the widths are never negative at
that point. -/
def build_data (cfg : cfg_t) : Except exit_t (List Nat) :=
  match cfg.raw_bits with
  | some raw => parse_raw_bits (some raw) 512
  | none =>
    let N := cfg.format_bits
    if ¬ (N = 26 ∨ N = 34 ∨ N = 35 ∨ N = 37 ∨ N = 48) then die "unsupported format"
    else
      let fb := (resolve_widths cfg).1
      let cb := (resolve_widths cfg).2
      if fb ≥ 64 then Except.error exit_t.undefined
      else if cfg.facility ≥ (1 <<< fb.toNat) % 2 ^ 64 then die "facility/card exceeds width"
      else if cb ≥ 64 then Except.error exit_t.undefined
      else if cfg.card ≥ (1 <<< cb.toNat) % 2 ^ 64 then die "facility/card exceeds width"
      else
        match compose_fields cfg.facility fb.toNat cfg.card cb.toNat 512 with
        | Except.error e => Except.error e
        | Except.ok data =>
          let dlen : Int := data.length
          if cfg.parity = PAR_NONE ∧ cfg.frame_bits > 0 then
            if cfg.frame_bits < dlen then die "frame-bits < data bits"
            else if cfg.frame_bits > dlen then
              let pad := cfg.frame_bits - dlen
              if cfg.frame_bits > 512 then die "frame-bits too large"
              else Except.ok (List.replicate pad.toNat 0 ++ data)
            else Except.ok data
          else Except.ok data

/-- Lines 146-180 of `main`: everything before the first GPIO call. The result
is the frame `frame[0..flen-1]`. -/
def build_frame (cfg : cfg_t) : Except exit_t (List Nat) :=
  match check_cfg cfg with
  | Except.error e => Except.error e
  | Except.ok _ =>
    match build_data cfg with
    | Except.error e => Except.error e
    | Except.ok data =>
      match apply_parity data cfg.parity 520 with
      | Except.error e => Except.error e
      | Except.ok frame =>
        if cfg.frame_bits > 0 ∧ cfg.frame_bits ≠ (frame.length : Int) then
          die "frame-bits mismatch"
        else Except.ok frame

/-- The calls that reach the GPIO device or the clock, in the order issued. A
call is recorded when it is made, whether or not it then fails.
`chip_open n` is `gpiod_chip_open` on the path `snprintf` builds from the chip
name `n`: the first 127 characters of `/dev/n`. -/
inductive event_t
  | chip_open (chip_name : String)
  | request_lines (d0 d1 : Nat)
  | set_values (v0 v1 : Nat)
  | set_value (offset value : Nat)
  | sleep_us (us : Int)
  | release
  | chip_close
  deriving DecidableEq

/-- The environment of a run: which libgpiod calls succeed. `set_ok k` tells
whether the `k`-th call (from 0) of `gpiod_line_request_set_value(s)` does. -/
structure hw_t where
  chip_open : Bool
  line_settings_new : Bool
  line_config_new : Bool
  add_line_settings : Bool
  request_config_new : Bool
  request_lines : Bool
  set_ok : Nat → Bool

/-- Lines 211-217 of `main`: the pulse loop over the rest of the frame. `k`
counts the set calls already made and `tr` is the trace so far. -/
def pulse_loop (cfg : cfg_t) (hw : hw_t) :
    List Nat → Nat → List event_t → Except exit_t Nat × List event_t
  | [], k, tr => (Except.ok k, tr)
  | b :: rest, k, tr =>
    let pulse_offset := if b = 0 then cfg.d0_line else cfg.d1_line
    let tr1 := tr ++ [event_t.set_value pulse_offset 0]
    if !hw.set_ok k then (die "set low failed", tr1)
    else
      let tr2 := tr1 ++ [event_t.sleep_us cfg.pulse_us, event_t.set_value pulse_offset 1]
      if !hw.set_ok (k + 1) then (die "set high failed", tr2)
      else pulse_loop cfg hw rest (k + 2) (tr2 ++ [event_t.sleep_us cfg.space_us])

/-- The function `main` after option parsing: the exit (`Except.ok ()` is
`return 0`) and the trace of device calls. -/
def main (cfg : cfg_t) (hw : hw_t) : Except exit_t Unit × List event_t :=
  match build_frame cfg with
  | Except.error e => (Except.error e, [])
  | Except.ok frame =>
    let tr0 := [event_t.chip_open cfg.chip_name]
    if !hw.chip_open then (die "open gpiochip failed", tr0)
    else if !hw.line_settings_new then (die "line_settings_new failed", tr0)
    else if !hw.line_config_new then (die "line_config_new failed", tr0)
    else if !hw.add_line_settings then (die "line_config_add_line_settings failed", tr0)
    else if !hw.request_config_new then (die "request_config_new failed", tr0)
    else
      let tr1 := tr0 ++ [event_t.request_lines cfg.d0_line cfg.d1_line]
      if !hw.request_lines then (die "chip_request_lines failed (permissions or busy?)", tr1)
      else
        let tr2 := tr1 ++ [event_t.set_values 1 1]
        if !hw.set_ok 0 then (die "set idle high failed", tr2)
        else
          match pulse_loop cfg hw frame 1 (tr2 ++ [event_t.sleep_us 2000]) with
          | (Except.error e, tr3) => (Except.error e, tr3)
          | (Except.ok k, tr3) =>
            let tr4 := tr3 ++ [event_t.set_values 1 1]
            if !hw.set_ok k then (die "restore high failed", tr4)
            else (Except.ok (), tr4 ++ [event_t.release, event_t.chip_close])

/-- A configuration with both offsets given: lines 17 and 27, the rest as
initialised. -/
def cfg_lines : cfg_t := { cfg_init with d0_line := 17, d1_line := 27 }

/-- An environment in which every libgpiod call succeeds. -/
def hw_ok : hw_t := ⟨true, true, true, true, true, true, fun _ => true⟩

/-- Reading a bit list as a binary number, the first bit most significant. -/
def bits_value (bits : List Nat) : Nat := bits.foldl (fun acc b => 2 * acc + b) 0

/-- The hex digits, in either letter case. -/
def hex_digits : List Char := "0123456789abcdefABCDEF".toList

/-- The value of a hex digit: its place in `0123456789abcdef`, or in
`0123456789ABCDEF`. -/
def hex_digit_value (q : Char) : Nat :=
  if q ∈ "0123456789abcdef".toList then "0123456789abcdef".toList.indexOf q
  else "0123456789ABCDEF".toList.indexOf q

/-- The four bits `(v>>3)&1, (v>>2)&1, (v>>1)&1, v&1` of a digit value `v`. -/
def nibble (v : Nat) : List Nat := [(v >>> 3) &&& 1, (v >>> 2) &&& 1, (v >>> 1) &&& 1, v &&& 1]

/-- The bits of a digit string: the nibble of each digit, in order. -/
def hex_cells : List Char → List Nat
  | [] => []
  | q :: rest => nibble (hex_digit_value q) ++ hex_cells rest

/-- Whether a literal starts with `0x` or `0X`. -/
def starts_hex : List Char → Bool
  | '0' :: 'x' :: _ => true
  | '0' :: 'X' :: _ => true
  | _ => false

/-- The characters a binary literal may hold. -/
def bin_chars : List Char := ['0', '1', ' ', '_']

/-- The `0`/`1` characters of a literal, in order. -/
def bin_digits (s : List Char) : List Char := s.filter (fun p => p = '0' ∨ p = '1')

/-- The bits named by the `0`/`1` characters of a literal, in order. -/
def bin_cells (s : List Char) : List Nat := (bin_digits s).map (fun p => if p = '1' then 1 else 0)

/-- A literal with its spaces and underscores removed. -/
def strip_separators (s : List Char) : List Char := s.filter (fun p => ¬ (p = ' ' ∨ p = '_'))

/-- The messages with which `main` can end once the frame is built. -/
def hw_messages : List String :=
  ["open gpiochip failed", "line_settings_new failed", "line_config_new failed",
   "line_config_add_line_settings failed", "request_config_new failed",
   "chip_request_lines failed (permissions or busy?)", "set idle high failed",
   "set low failed", "set high failed", "restore high failed"]

/-- A format-26 configuration with facility 256 = 2^8. -/
def cfg_fac256 : cfg_t := { cfg_lines with facility := 256 }

/-- A format-26 configuration with facility 255 = 2^8 - 1. -/
def cfg_fac255 : cfg_t := { cfg_lines with facility := 255 }

/-- A configuration with `--pulse-us 10`. -/
def cfg_pulse10 : cfg_t := { cfg_lines with pulse_us := 10 }

/-- A configuration with `--pulse-us 100 --space-us 99`. -/
def cfg_space99 : cfg_t := { cfg_lines with pulse_us := 100, space_us := 99 }

/-- A configuration with `--frame-bits 26` (format 26, Standard parity). -/
def cfg_frame26 : cfg_t := { cfg_lines with frame_bits := 26 }

/-- A configuration with `--frame-bits 30` (format 26, Standard parity). -/
def cfg_frame30 : cfg_t := { cfg_lines with frame_bits := 30 }

/-- A configuration with `--d0 17 --d1 17`: both offsets given, and equal. -/
def cfg_same_line : cfg_t := { cfg_init with d0_line := 17, d1_line := 17 }

/-- A configuration with `--d0 17` only: the offset d1 is missing. -/
def cfg_no_d1 : cfg_t := { cfg_init with d0_line := 17 }

/-- The cells `compose_fields` writes: `fb` bits of `f`, then `cb` bits of `c`,
each most significant bit first. -/
def field_cells (f fb c cb : Nat) : List Nat :=
  (List.range fb).map (fun i => (f >>> (fb - 1 - i)) &&& 1)
    ++ (List.range cb).map (fun i => (c >>> (cb - 1 - i)) &&& 1)

/-- Format 26, facility 5, card 1234, parity None, `--frame-bits 30`. -/
def cfg_pad30 : cfg_t :=
  { cfg_lines with facility := 5, card := 1234, parity := PAR_NONE, frame_bits := 30 }

/-- Format 26, facility 5, card 1234, parity None, `--frame-bits 24`. -/
def cfg_pad24 : cfg_t :=
  { cfg_lines with facility := 5, card := 1234, parity := PAR_NONE, frame_bits := 24 }

/-- Format 26, facility 5, card 1234, parity None, `--frame-bits 20`. -/
def cfg_pad20 : cfg_t :=
  { cfg_lines with facility := 5, card := 1234, parity := PAR_NONE, frame_bits := 20 }

/-- Format 26, facility 5, card 1234, parity None, `--frame-bits 513`. -/
def cfg_pad513 : cfg_t :=
  { cfg_lines with facility := 5, card := 1234, parity := PAR_NONE, frame_bits := 513 }

/-- Whether an event is a line operation: a call of
`gpiod_line_request_set_values` or `gpiod_line_request_set_value`. -/
def is_line_op : event_t → Bool
  | event_t.set_values _ _ => true
  | event_t.set_value _ _ => true
  | _ => false

/-- The line operations of a trace, in order. -/
def line_ops (tr : List event_t) : List event_t := tr.filter is_line_op

/-- The line pulsed for a bit: the d0 line for 0, the d1 line for 1. -/
def pulse_line (cfg : cfg_t) (b : Nat) : Nat := if b = 0 then cfg.d0_line else cfg.d1_line

/-- For each bit in order: set its line low, then set it high. -/
def pulse_ops (cfg : cfg_t) : List Nat → List event_t
  | [] => []
  | b :: rest =>
    event_t.set_value (pulse_line cfg b) 0 :: event_t.set_value (pulse_line cfg b) 1
      :: pulse_ops cfg rest

/-- The line operations of a run without failure: both lines high, the pulses,
both lines high. -/
def expected_ops (cfg : cfg_t) (frame : List Nat) : List event_t :=
  event_t.set_values 1 1 :: (pulse_ops cfg frame ++ [event_t.set_values 1 1])

/-- The events of a pulse loop without failure: each pulse with its two
delays. -/
def pulse_events (cfg : cfg_t) : List Nat → List event_t
  | [] => []
  | b :: rest =>
    [event_t.set_value (pulse_line cfg b) 0, event_t.sleep_us cfg.pulse_us,
      event_t.set_value (pulse_line cfg b) 1, event_t.sleep_us cfg.space_us]
      ++ pulse_events cfg rest

/-- The levels `(d0, d1)` of the two lines after a line operation. -/
def drive (d0 d1 : Nat) (s : Nat × Nat) : event_t → Nat × Nat
  | event_t.set_values v0 v1 => (v0, v1)
  | event_t.set_value offset v =>
    (if offset = d0 then v else s.1, if offset = d1 then v else s.2)
  | _ => s

/-- The levels of the two lines after a sequence of operations, starting from
the levels `s` (the lines are requested high, `(1, 1)`). -/
def levels (d0 d1 : Nat) (s : Nat × Nat) (ops : List event_t) : Nat × Nat :=
  ops.foldl (drive d0 d1) s

/-- Whether the environment lets the lines be acquired: every call before the
first line operation succeeds. -/
def acquired (hw : hw_t) : Prop :=
  hw.chip_open = true ∧ hw.line_settings_new = true ∧ hw.line_config_new = true ∧
  hw.add_line_settings = true ∧ hw.request_config_new = true ∧ hw.request_lines = true

instance (hw : hw_t) : Decidable (acquired hw) := by
  unfold acquired
  infer_instance

/-- Raw bits `01`, parity None. -/
def cfg_raw_01 : cfg_t := { cfg_lines with raw_bits := some "01".toList, parity := PAR_NONE }

/-- The messages of a failed line operation. -/
def set_messages : List String :=
  ["set idle high failed", "set low failed", "set high failed", "restore high failed"]

/-- An environment in which the line operation number 2 (the first set-high)
fails and every other call succeeds. -/
def hw_fail2 : hw_t := ⟨true, true, true, true, true, true, fun k => k != 2⟩

/-- The format presets `26→(8,16), 34→(16,16), 37→(18,16), 35→(19,16),
48→(16,30)`: the facility and card widths of a format id. -/
def format_preset (N : Int) : Option (Int × Int) :=
  if N = 26 then some (8, 16)
  else if N = 34 then some (16, 16)
  else if N = 37 then some (18, 16)
  else if N = 35 then some (19, 16)
  else if N = 48 then some (16, 30)
  else none

/-- Format 26 with `--facility-bits 10` alone and facility 300 (below 2^10,
not below 2^8). -/
def cfg_fbits10 : cfg_t := { cfg_lines with facility_bits := 10, facility := 300 }

/-- Format 26 with `--card-bits 20` alone and card 70000 (below 2^20, not
below 2^16). -/
def cfg_cbits20 : cfg_t := { cfg_lines with card_bits := 20, card := 70000 }

/-- Format 26 with `--facility-bits 10 --card-bits 20 --frame-bits 32`,
facility 300 and card 70000. -/
def cfg_both_bits32 : cfg_t :=
  { cfg_lines with facility_bits := 10, card_bits := 20, facility := 300, card := 70000,
                   frame_bits := 32 }

/-- Format 26 with `--facility-bits 10 --card-bits 20`, facility 300 and card
70000. -/
def cfg_both_bits : cfg_t :=
  { cfg_lines with facility_bits := 10, card_bits := 20, facility := 300, card := 70000 }

/-- The messages with which a run in raw mode can end before the first device
call. -/
def raw_messages : List String :=
  ["pulse-us out of range", "space-us must be >= pulse-us", "empty hex", "bad hex in raw",
   "raw hex too long", "raw bits too long", "invalid char in raw bits", "buffer small",
   "frame-bits mismatch"]

/-- Format id 40 with `--facility-bits 8 --card-bits 16`. -/
def cfg_fmt40 : cfg_t := { cfg_lines with format_bits := 40, facility_bits := 8, card_bits := 16 }

/-- Format id 40 with the raw bits `0xA5`. -/
def cfg_fmt40_raw : cfg_t := { cfg_lines with format_bits := 40, raw_bits := some "0xA5".toList }

/-- Raw bits `0xA5` with other field options: format 99, facility 7, card 9,
widths 3 and 4. -/
def cfg_raw_other : cfg_t :=
  { cfg_lines with raw_bits := some "0xA5".toList, format_bits := 99, facility := 7, card := 9,
                   facility_bits := 3, card_bits := 4 }

/-- Raw bits `0xA5` with the default field options. -/
def cfg_raw_std : cfg_t := { cfg_lines with raw_bits := some "0xA5".toList }

/-- The Standard-parity frame of a data sequence: the leading bit, the data,
the trailing bit. -/
def std_frame (d : List Nat) : List Nat :=
  [if parity_even_bits d (d.length / 2) then 1 else 0] ++ d
    ++ [if parity_even_bits (d.drop (d.length / 2)) (d.length - d.length / 2) then 0 else 1]

/-- Format 35 with `--frame-bits 35`. -/
def cfg_fmt35 : cfg_t := { cfg_lines with format_bits := 35, frame_bits := 35 }

/-- Format 37 with `--frame-bits 37`. -/
def cfg_fmt37 : cfg_t := { cfg_lines with format_bits := 37, frame_bits := 37 }

/-- Format 34 with `--frame-bits 34`. -/
def cfg_fmt34 : cfg_t := { cfg_lines with format_bits := 34, frame_bits := 34 }

/-- Format 35 without `--frame-bits`. -/
def cfg_fmt35_free : cfg_t := { cfg_lines with format_bits := 35 }

theorem msb_cells_length (f w : Nat) :
    ((List.range w).map (fun i => (f >>> (w - 1 - i)) &&& 1)).length = w := by
  simp

theorem msb_cells_get (f w i : Nat) (hi : i < w) :
    ((List.range w).map (fun i => (f >>> (w - 1 - i)) &&& 1))[i]?
      = some (f / 2 ^ (w - 1 - i) % 2) := by
  rw [List.getElem?_map, List.getElem?_range hi]
  simp [Nat.shiftRight_eq_div_pow, Nat.and_one_is_mod]

theorem msb_cells_value (w : Nat) : ∀ f : Nat,
    bits_value ((List.range w).map (fun i => (f >>> (w - 1 - i)) &&& 1)) = f % 2 ^ w := by
  induction w with
  | zero => intro f; simp [bits_value, Nat.mod_one]
  | succ w ih =>
    intro f
    have hmap : (List.range w).map (fun i => (f >>> (w + 1 - 1 - i)) &&& 1)
        = (List.range w).map (fun i => ((f / 2) >>> (w - 1 - i)) &&& 1) := by
      apply List.map_congr_left
      intro i hi
      have hi2 : i < w := List.mem_range.mp hi
      have e : w + 1 - 1 - i = (w - 1 - i) + 1 := by omega
      rw [e, Nat.shiftRight_succ_inside]
    have ih2 := ih (f / 2)
    unfold bits_value at ih2 ⊢
    rw [List.range_succ, List.map_append, List.foldl_append, hmap, ih2]
    simp only [List.map_cons, List.map_nil, List.foldl_cons, List.foldl_nil]
    have e0 : w + 1 - 1 - w = 0 := by omega
    rw [e0, Nat.shiftRight_zero, Nat.and_one_is_mod, pow_succ', Nat.mod_mul]
    omega

/-- C1: for widths `fb, cb ≤ 63` and values `f < 2^fb`, `c < 2^cb`,
`compose_fields` returns `fb+cb` bits; bit `i < fb` is bit `fb-1-i` of `f`, bit
`fb+i` (`i < cb`) is bit `cb-1-i` of `c`; the first `fb` bits read MSB-first
give `f` and the last `cb` bits give `c`. -/
theorem compose_fields_msb_first (f fb c cb : Nat) (hfb : fb ≤ 63) (hcb : cb ≤ 63)
    (hf : f < 2 ^ fb) (hc : c < 2 ^ cb) :
    ∃ bits, compose_fields f fb c cb 512 = Except.ok bits ∧ bits.length = fb + cb ∧
      (∀ i, i < fb → bits[i]? = some (f / 2 ^ (fb - 1 - i) % 2)) ∧
      (∀ i, i < cb → bits[fb + i]? = some (c / 2 ^ (cb - 1 - i) % 2)) ∧
      bits_value (bits.take fb) = f ∧ bits_value (bits.drop fb) = c := by
  refine ⟨(List.range fb).map (fun i => (f >>> (fb - 1 - i)) &&& 1)
      ++ (List.range cb).map (fun i => (c >>> (cb - 1 - i)) &&& 1), ?_, ?_, ?_, ?_, ?_, ?_⟩
  · unfold compose_fields
    rw [if_neg (by omega)]
  · simp
  · intro i hi
    rw [List.getElem?_append_left (by simpa using hi)]
    exact msb_cells_get f fb i hi
  · intro i hi
    rw [List.getElem?_append_right (by simp)]
    simpa using msb_cells_get c cb i hi
  · rw [List.take_left' (msb_cells_length f fb), msb_cells_value, Nat.mod_eq_of_lt hf]
  · rw [List.drop_left' (msb_cells_length f fb), msb_cells_value, Nat.mod_eq_of_lt hc]

/-- C1 at format 26, facility 5, card 1234: `00000101` then `0000010011010010`. -/
theorem compose_fields_msb_first_witness :
    compose_fields 5 8 1234 16 512
        = Except.ok [0,0,0,0,0,1,0,1, 0,0,0,0,0,1,0,0,1,1,0,1,0,0,1,0] ∧
    ∃ bits, compose_fields 5 8 1234 16 512 = Except.ok bits ∧ bits.length = 8 + 16 ∧
      (∀ i, i < 8 → bits[i]? = some (5 / 2 ^ (8 - 1 - i) % 2)) ∧
      (∀ i, i < 16 → bits[8 + i]? = some (1234 / 2 ^ (16 - 1 - i) % 2)) ∧
      bits_value (bits.take 8) = 5 ∧ bits_value (bits.drop 8) = 1234 :=
  ⟨by decide, compose_fields_msb_first 5 8 1234 16 (by decide) (by decide) (by decide)
    (by decide)⟩

/-! ## Parity -/

theorem countP_ne_zero_eq_count_one (d : List Nat) (hbits : ∀ x ∈ d, x < 2) :
    d.countP (fun x => x ≠ 0) = d.count 1 := by
  unfold List.count
  apply List.countP_congr
  intro x hx
  have := hbits x hx
  simp
  omega

theorem parity_even_bits_eq (b : List Nat) (n : Nat) (hbits : ∀ x ∈ b, x < 2) :
    parity_even_bits b n = decide ((b.take n).count 1 % 2 = 0) := by
  unfold parity_even_bits
  rw [countP_ne_zero_eq_count_one (b.take n) (fun x hx => hbits x (List.mem_of_mem_take hx))]
  rfl

/-- C2: in Standard mode a data-bit sequence `d` of length `n` gives a frame of
length `n+2` whose bits `1..n` are `d`; the 1-bits among `frame[0]` and the
first `⌊n/2⌋` data bits are odd in number, and the 1-bits among the last
`⌈n/2⌉` data bits and `frame[n+1]` are even in number. -/
theorem apply_parity_std_split (d : List Nat) (hbits : ∀ x ∈ d, x < 2)
    (hlen : d.length + 2 ≤ 520) :
    ∃ frame, apply_parity d PAR_STD 520 = Except.ok frame ∧
      frame.length = d.length + 2 ∧
      (frame.drop 1).take d.length = d ∧
      ((frame.take 1 ++ d.take (d.length / 2)).count 1) % 2 = 1 ∧
      ((d.drop (d.length - (d.length + 1) / 2) ++ frame.drop (d.length + 1)).count 1) % 2
        = 0 := by
  have hdrop : d.length - (d.length + 1) / 2 = d.length / 2 := by omega
  have htake : (d.drop (d.length / 2)).take (d.length - d.length / 2) = d.drop (d.length / 2) :=
    List.take_of_length_le (by simp)
  have hbd : ∀ x ∈ d.drop (d.length / 2), x < 2 := fun x hx => hbits x (List.mem_of_mem_drop hx)
  have hright := parity_even_bits_eq (d.drop (d.length / 2)) (d.length - d.length / 2) hbd
  rw [htake] at hright
  refine ⟨[if parity_even_bits d (d.length / 2) then 1 else 0] ++ d
      ++ [if parity_even_bits (d.drop (d.length / 2)) (d.length - d.length / 2) then 0 else 1],
    ?_, ?_, ?_, ?_, ?_⟩
  · unfold apply_parity
    simp only [if_neg (show ¬ (PAR_STD = PAR_NONE) by decide),
      if_neg (show ¬ (PAR_STD = PAR_WHOLE_EVEN ∨ PAR_STD = PAR_WHOLE_ODD) by decide)]
    rw [if_neg (by omega)]
  · simp
  · simp
  · rw [parity_even_bits_eq d _ hbits]
    by_cases h : (d.take (d.length / 2)).count 1 % 2 = 0
    · simp [h, List.count_cons]
      omega
    · simp [h, List.count_cons]
      omega
  · rw [hdrop, hright]
    by_cases h : (d.drop (d.length / 2)).count 1 % 2 = 0
    · simp [h, List.count_cons, List.drop_append_eq_append_drop]
    · simp [h, List.count_cons, List.drop_append_eq_append_drop]
      omega

/-- C2 at the data bits `1 0 1`: the frame is `0 1 0 1 1`. -/
theorem apply_parity_std_split_witness :
    apply_parity [1, 0, 1] PAR_STD 520 = Except.ok [0, 1, 0, 1, 1] ∧
    ∃ frame, apply_parity [1, 0, 1] PAR_STD 520 = Except.ok frame ∧
      frame.length = [1, 0, 1].length + 2 ∧
      (frame.drop 1).take [1, 0, 1].length = [1, 0, 1] ∧
      ((frame.take 1 ++ [1, 0, 1].take ([1, 0, 1].length / 2)).count 1) % 2 = 1 ∧
      (([1, 0, 1].drop ([1, 0, 1].length - ([1, 0, 1].length + 1) / 2)
          ++ frame.drop ([1, 0, 1].length + 1)).count 1) % 2 = 0 :=
  ⟨by decide, apply_parity_std_split [1, 0, 1] (by decide) (by decide)⟩

theorem apply_parity_whole_even_eq (d : List Nat) (hlen : d.length + 1 ≤ 520) :
    apply_parity d PAR_WHOLE_EVEN 520
      = Except.ok (d ++ [if parity_even_bits d d.length then 1 else 0]) := by
  unfold apply_parity
  simp only [reduceCtorEq, if_false, true_or, if_true]
  rw [if_neg (by omega)]

theorem apply_parity_whole_odd_eq (d : List Nat) (hlen : d.length + 1 ≤ 520) :
    apply_parity d PAR_WHOLE_ODD 520
      = Except.ok (d ++ [if parity_even_bits d d.length then 0 else 1]) := by
  unfold apply_parity
  simp only [reduceCtorEq, if_false, or_true, if_true]
  rw [if_neg (by omega)]

/-- In WholeEven mode every frame built from data bits has an odd number of
1-bits: the appended bit is 1 exactly when the data has an even number. -/
theorem apply_parity_whole_even_total (d : List Nat) (hbits : ∀ x ∈ d, x < 2)
    (hlen : d.length + 1 ≤ 520) :
    ∃ frame, apply_parity d PAR_WHOLE_EVEN 520 = Except.ok frame ∧ frame.count 1 % 2 = 1 := by
  refine ⟨_, apply_parity_whole_even_eq d hlen, ?_⟩
  rw [parity_even_bits_eq d _ hbits, List.take_length]
  by_cases h : d.count 1 % 2 = 0
  · simp [h, List.count_cons]
    omega
  · simp [h, List.count_cons]
    omega

/-- In WholeOdd mode every frame built from data bits has an even number of
1-bits: the appended bit is 1 exactly when the data has an odd number. -/
theorem apply_parity_whole_odd_total (d : List Nat) (hbits : ∀ x ∈ d, x < 2)
    (hlen : d.length + 1 ≤ 520) :
    ∃ frame, apply_parity d PAR_WHOLE_ODD 520 = Except.ok frame ∧ frame.count 1 % 2 = 0 := by
  refine ⟨_, apply_parity_whole_odd_eq d hlen, ?_⟩
  rw [parity_even_bits_eq d _ hbits, List.take_length]
  by_cases h : d.count 1 % 2 = 0
  · simp [h, List.count_cons]
  · simp [h, List.count_cons]
    omega

/-- C3: the WholeEven frame should hold an even number of 1-bits; on the data
bit `0` (`--raw-bits 0 --parity whole-even`) the code builds the frame `0 1`,
which holds one. -/
theorem whole_even_frame_has_odd_ones :
    build_frame { cfg_lines with raw_bits := some ['0'], parity := PAR_WHOLE_EVEN }
        = Except.ok [0, 1] ∧
      apply_parity [0] PAR_WHOLE_EVEN 520 = Except.ok [0, 1] ∧
      ¬ (([0, 1] : List Nat).count 1 % 2 = 0) := by
  decide

/-- C4: the WholeOdd frame should hold an odd number of 1-bits; on the data
bit `0` (`--raw-bits 0 --parity whole-odd`) the code builds the frame `0 0`,
which holds none. -/
theorem whole_odd_frame_has_even_ones :
    build_frame { cfg_lines with raw_bits := some ['0'], parity := PAR_WHOLE_ODD }
        = Except.ok [0, 0] ∧
      apply_parity [0] PAR_WHOLE_ODD 520 = Except.ok [0, 0] ∧
      ¬ (([0, 0] : List Nat).count 1 % 2 = 1) := by
  decide

/-- C5: in a whole-frame mode the frame is the data bits `d` followed by one
bit; with `c` the number of 1-bits of `d`, that bit is 1 if `c` is even and 0
otherwise in WholeEven mode, 0 if `c` is even and 1 otherwise in WholeOdd. -/
theorem apply_parity_whole_appended_bit (d : List Nat) (hbits : ∀ x ∈ d, x < 2)
    (hlen : d.length + 1 ≤ 520) :
    apply_parity d PAR_WHOLE_EVEN 520
        = Except.ok (d ++ [if d.count 1 % 2 = 0 then 1 else 0]) ∧
      apply_parity d PAR_WHOLE_ODD 520
        = Except.ok (d ++ [if d.count 1 % 2 = 0 then 0 else 1]) ∧
      (d ++ [if d.count 1 % 2 = 0 then 1 else 0]).length = d.length + 1 ∧
      (d ++ [if d.count 1 % 2 = 0 then 0 else 1]).length = d.length + 1 := by
  refine ⟨?_, ?_, by simp, by simp⟩
  · rw [apply_parity_whole_even_eq d hlen, parity_even_bits_eq d _ hbits, List.take_length]
    simp
  · rw [apply_parity_whole_odd_eq d hlen, parity_even_bits_eq d _ hbits, List.take_length]
    simp

/-- C5 at the data bits `1 1 0` (two 1-bits): WholeEven appends 1, WholeOdd 0. -/
theorem apply_parity_whole_appended_bit_witness :
    apply_parity [1, 1, 0] PAR_WHOLE_EVEN 520 = Except.ok [1, 1, 0, 1] ∧
    apply_parity [1, 1, 0] PAR_WHOLE_ODD 520 = Except.ok [1, 1, 0, 0] ∧
    (apply_parity [1, 1, 0] PAR_WHOLE_EVEN 520
        = Except.ok ([1, 1, 0] ++ [if [1, 1, 0].count 1 % 2 = 0 then 1 else 0]) ∧
      apply_parity [1, 1, 0] PAR_WHOLE_ODD 520
        = Except.ok ([1, 1, 0] ++ [if [1, 1, 0].count 1 % 2 = 0 then 0 else 1]) ∧
      ([1, 1, 0] ++ [if [1, 1, 0].count 1 % 2 = 0 then 1 else 0]).length
        = [1, 1, 0].length + 1 ∧
      ([1, 1, 0] ++ [if [1, 1, 0].count 1 % 2 = 0 then 0 else 1]).length
        = [1, 1, 0].length + 1) :=
  ⟨by decide, by decide, apply_parity_whole_appended_bit [1, 1, 0] (by decide) (by decide)⟩

/-- C6: in None mode the frame of a data sequence `d` of length at most 520 is
`d` itself, bit for bit. -/
theorem apply_parity_none_identity (d : List Nat) (hlen : d.length ≤ 520) :
    apply_parity d PAR_NONE 520 = Except.ok d := by
  unfold apply_parity
  simp only [if_pos]
  rw [if_neg (by omega)]

/-- C6 at the data bits `1 0 1 1`. -/
theorem apply_parity_none_identity_witness :
    [1, 0, 1, 1].length ≤ 520 ∧ apply_parity [1, 0, 1, 1] PAR_NONE 520 = Except.ok [1, 0, 1, 1] :=
  ⟨by decide, apply_parity_none_identity [1, 0, 1, 1] (by decide)⟩

/-! ## Raw literals: hex -/

theorem hex_digits_sound : ∀ q ∈ hex_digits, is_hex q = true ∧ hex_val q = hex_digit_value q := by
  decide

theorem is_hex_ascii : ∀ n, n < 128 → is_hex (Char.ofNat n) = true → Char.ofNat n ∈ hex_digits := by
  decide

theorem is_hex_complete (q : Char) (h : is_hex q = true) : q ∈ hex_digits := by
  have hlt : q.toNat < 128 := by
    simp [is_hex] at h
    omega
  have := is_hex_ascii q.toNat hlt
  rw [Char.ofNat_toNat] at this
  exact this h

theorem hex_digit_value_lt : ∀ q ∈ hex_digits, hex_digit_value q < 16 := by
  decide

theorem mask_eq_shift : ∀ v, v < 16 →
    [if v &&& 8 ≠ 0 then 1 else 0, if v &&& 4 ≠ 0 then 1 else 0,
      if v &&& 2 ≠ 0 then 1 else 0, if v &&& 1 ≠ 0 then 1 else 0] = nibble v := by
  decide

theorem hex_cells_length (digits : List Char) : (hex_cells digits).length = 4 * digits.length := by
  induction digits with
  | nil => rfl
  | cons q rest ih => simp [hex_cells, nibble, ih]; omega

theorem hex_cells_get : ∀ (digits : List Char) (j : Nat) (q : Char), digits[j]? = some q →
    (hex_cells digits)[4 * j]? = some ((hex_digit_value q >>> 3) &&& 1) ∧
    (hex_cells digits)[4 * j + 1]? = some ((hex_digit_value q >>> 2) &&& 1) ∧
    (hex_cells digits)[4 * j + 2]? = some ((hex_digit_value q >>> 1) &&& 1) ∧
    (hex_cells digits)[4 * j + 3]? = some (hex_digit_value q &&& 1) := by
  intro digits
  induction digits with
  | nil => intro j q h; simp at h
  | cons d rest ih =>
    intro j q h
    cases j with
    | zero =>
      simp at h
      subst h
      simp [hex_cells, nibble]
    | succ j =>
      simp at h
      have e0 : 4 * (j + 1) = 4 * j + 4 := by omega
      have e1 : 4 * (j + 1) + 1 = (4 * j + 1) + 4 := by omega
      have e2 : 4 * (j + 1) + 2 = (4 * j + 2) + 4 := by omega
      have e3 : 4 * (j + 1) + 3 = (4 * j + 3) + 4 := by omega
      have hl : (nibble (hex_digit_value d)).length = 4 := rfl
      obtain ⟨h0, h1, h2, h3⟩ := ih j q h
      unfold hex_cells
      refine ⟨?_, ?_, ?_, ?_⟩
      · rw [e0, List.getElem?_append_right (by rw [hl]; omega), hl]
        simpa using h0
      · rw [e1, List.getElem?_append_right (by rw [hl]; omega), hl]
        simpa using h1
      · rw [e2, List.getElem?_append_right (by rw [hl]; omega), hl]
        simpa using h2
      · rw [e3, List.getElem?_append_right (by rw [hl]; omega), hl]
        simpa using h3

theorem parse_hex_loop_ok (max : Nat) : ∀ (digits : List Char) (bits : List Nat),
    (∀ q ∈ digits, q ∈ hex_digits) → bits.length + 4 * digits.length ≤ max →
    parse_hex_loop max digits bits = Except.ok (bits ++ hex_cells digits) := by
  intro digits
  induction digits with
  | nil => intro bits _ _; simp [parse_hex_loop, hex_cells]
  | cons q rest ih =>
    intro bits hd hlen
    have hq := hex_digits_sound q (hd q (List.mem_cons_self q rest))
    have hv := hex_digit_value_lt q (hd q (List.mem_cons_self q rest))
    simp only [List.length_cons] at hlen
    unfold parse_hex_loop
    simp only [hq.1, Bool.not_true, Bool.false_eq_true, if_false]
    rw [if_neg (by omega)]
    simp only [hq.2, mask_eq_shift _ hv]
    rw [ih _ (fun x hx => hd x (List.mem_cons_of_mem q hx)) (by
      simp only [List.length_append]
      have : (nibble (hex_digit_value q)).length = 4 := rfl
      omega)]
    simp [hex_cells]

theorem parse_hex_loop_bad (max : Nat) : ∀ (s : List Char) (bits : List Nat),
    (∃ q ∈ s, q ∉ hex_digits) →
    parse_hex_loop max s bits = die "bad hex in raw"
      ∨ parse_hex_loop max s bits = die "raw hex too long" := by
  intro s
  induction s with
  | nil => intro bits h; simp at h
  | cons q rest ih =>
    intro bits h
    unfold parse_hex_loop
    by_cases hq : is_hex q = true
    · simp only [hq, Bool.not_true, Bool.false_eq_true, if_false]
      by_cases hn : bits.length + 4 > max
      · right; rw [if_pos hn]
      · rw [if_neg hn]
        apply ih
        obtain ⟨x, hx, hxn⟩ := h
        rcases List.mem_cons.mp hx with rfl | hx2
        · exact absurd (is_hex_complete x hq) hxn
        · exact ⟨x, hx2, hxn⟩
    · left
      simp [hq]

/-- C7: a raw literal `0x` or `0X` followed by `k` hex digits (`1 ≤ k ≤ 128`,
either case) parses to exactly `4k` bits, digit `j` of value `v` giving
`(v>>3)&1, (v>>2)&1, (v>>1)&1, v&1` at positions `4j..4j+3`; a non-hex
character after the prefix is a fatal parse error. -/
theorem parse_raw_bits_hex (x : Char) (hx : x = 'x' ∨ x = 'X') (digits : List Char) :
    ((∀ q ∈ digits, q ∈ hex_digits) → 1 ≤ digits.length → digits.length ≤ 128 →
      ∃ bits, parse_raw_bits (some ('0' :: x :: digits)) 512 = Except.ok bits ∧
        bits.length = 4 * digits.length ∧
        ∀ j q, digits[j]? = some q →
          bits[4 * j]? = some ((hex_digit_value q >>> 3) &&& 1) ∧
          bits[4 * j + 1]? = some ((hex_digit_value q >>> 2) &&& 1) ∧
          bits[4 * j + 2]? = some ((hex_digit_value q >>> 1) &&& 1) ∧
          bits[4 * j + 3]? = some (hex_digit_value q &&& 1)) ∧
    ((∃ q ∈ digits, q ∉ hex_digits) →
      parse_raw_bits (some ('0' :: x :: digits)) 512 = die "bad hex in raw"
        ∨ parse_raw_bits (some ('0' :: x :: digits)) 512 = die "raw hex too long") := by
  have hparse : digits ≠ [] →
      parse_raw_bits (some ('0' :: x :: digits)) 512 = parse_hex_loop 512 digits [] := by
    intro hne
    rcases hx with rfl | rfl <;> simp [parse_raw_bits, hne]
  constructor
  · intro hd hk1 hk
    have hne : digits ≠ [] := by
      intro h
      rw [h] at hk1
      simp at hk1
    refine ⟨hex_cells digits, ?_, hex_cells_length digits, hex_cells_get digits⟩
    rw [hparse hne, parse_hex_loop_ok 512 digits [] hd (by simp; omega)]
    simp
  · intro hbad
    have hne : digits ≠ [] := by
      intro h
      rw [h] at hbad
      simp at hbad
    rw [hparse hne]
    exact parse_hex_loop_bad 512 digits [] hbad

/-- C7 at `0xA5`, which parses to `1 0 1 0 0 1 0 1`, and at `0xG`, which is
fatal. -/
theorem parse_raw_bits_hex_witness :
    parse_raw_bits (some "0xA5".toList) 512 = Except.ok [1, 0, 1, 0, 0, 1, 0, 1] ∧
    (∃ bits, parse_raw_bits (some ('0' :: 'x' :: ['A', '5'])) 512 = Except.ok bits ∧
        bits.length = 4 * ['A', '5'].length ∧
        ∀ j q, ['A', '5'][j]? = some q →
          bits[4 * j]? = some ((hex_digit_value q >>> 3) &&& 1) ∧
          bits[4 * j + 1]? = some ((hex_digit_value q >>> 2) &&& 1) ∧
          bits[4 * j + 2]? = some ((hex_digit_value q >>> 1) &&& 1) ∧
          bits[4 * j + 3]? = some (hex_digit_value q &&& 1)) ∧
    (parse_raw_bits (some ('0' :: 'X' :: ['G'])) 512 = die "bad hex in raw"
        ∨ parse_raw_bits (some ('0' :: 'X' :: ['G'])) 512 = die "raw hex too long") :=
  ⟨by decide,
    (parse_raw_bits_hex 'x' (Or.inl rfl) ['A', '5']).1 (by decide) (by decide) (by decide),
    (parse_raw_bits_hex 'X' (Or.inr rfl) ['G']).2 ⟨ 'G', by decide, by decide⟩⟩

/-! ## Raw literals: binary -/

theorem parse_raw_bits_no_hex (max : Nat) (s : List Char) (h : starts_hex s = false) :
    parse_raw_bits (some s) max = parse_bin_loop max s [] := by
  unfold parse_raw_bits
  split
  · rename_i heq; cases heq
  · rename_i heq; cases heq; simp [starts_hex] at h
  · rename_i heq; cases heq; simp [starts_hex] at h
  · rename_i heq; cases heq; rfl

theorem parse_bin_loop_ok (max : Nat) : ∀ (s : List Char) (bits : List Nat),
    (∀ p ∈ s, p ∈ bin_chars) → bits.length + (bin_digits s).length ≤ max →
    parse_bin_loop max s bits = Except.ok (bits ++ bin_cells s) := by
  intro s
  induction s with
  | nil => intro bits _ _; simp [parse_bin_loop, bin_cells, bin_digits]
  | cons p rest ih =>
    intro bits hall hlen
    have hrest : ∀ x ∈ rest, x ∈ bin_chars := fun x hx => hall x (List.mem_cons_of_mem p hx)
    unfold parse_bin_loop
    by_cases hp : p = '0' ∨ p = '1'
    · have hd : bin_digits (p :: rest) = p :: bin_digits rest := by
        simp [bin_digits, List.filter_cons, hp]
      rw [hd] at hlen
      simp only [List.length_cons] at hlen
      have hlen2 : (bits ++ [if p = '1' then 1 else 0]).length + (bin_digits rest).length
          ≤ max := by
        simp only [List.length_append, List.length_singleton]
        omega
      rw [if_pos hp, if_neg (by omega), ih _ hrest hlen2]
      simp [bin_cells, hd]
    · have hd : bin_digits (p :: rest) = bin_digits rest := by
        simp [bin_digits, List.filter_cons, hp]
      rw [hd] at hlen
      have hsep : p = ' ' ∨ p = '_' := by
        have := hall p (List.mem_cons_self p rest)
        simp [bin_chars] at this
        tauto
      rw [if_neg hp, if_pos hsep, ih _ hrest hlen]
      simp [bin_cells, hd]

theorem parse_bin_loop_bad (max : Nat) : ∀ (s : List Char) (bits : List Nat),
    (∃ p ∈ s, p ∉ bin_chars) →
    parse_bin_loop max s bits = die "invalid char in raw bits"
      ∨ parse_bin_loop max s bits = die "raw bits too long" := by
  intro s
  induction s with
  | nil => intro bits h; simp at h
  | cons p rest ih =>
    intro bits h
    have hrest : p ∈ bin_chars → ∃ x ∈ rest, x ∉ bin_chars := by
      intro hp
      obtain ⟨x, hx, hxn⟩ := h
      rcases List.mem_cons.mp hx with rfl | hx2
      · exact absurd hp hxn
      · exact ⟨x, hx2, hxn⟩
    unfold parse_bin_loop
    by_cases hp : p = '0' ∨ p = '1'
    · rw [if_pos hp]
      by_cases hn : bits.length ≥ max
      · right; rw [if_pos hn]
      · rw [if_neg hn]
        exact ih _ (hrest (by simp only [bin_chars, List.mem_cons]; tauto))
    · rw [if_neg hp]
      by_cases hsep : p = ' ' ∨ p = '_'
      · rw [if_pos hsep]
        exact ih _ (hrest (by simp only [bin_chars, List.mem_cons]; tauto))
      · left; rw [if_neg hsep]

theorem strip_separators_eq (s : List Char) (hall : ∀ p ∈ s, p ∈ bin_chars) :
    strip_separators s = bin_digits s := by
  unfold strip_separators bin_digits
  apply List.filter_congr
  intro p hp
  have := hall p hp
  simp only [bin_chars, List.mem_cons, List.mem_singleton, List.not_mem_nil, or_false] at this
  rcases this with rfl | rfl | rfl | rfl <;> decide

theorem bin_digits_idem (s : List Char) : bin_digits (bin_digits s) = bin_digits s := by
  simp [bin_digits]

theorem bin_digits_no_hex (s : List Char) : starts_hex (bin_digits s) = false := by
  have hmem : ∀ p ∈ bin_digits s, p = '0' ∨ p = '1' := by
    intro p hp
    simpa [bin_digits] using (List.mem_filter.mp hp).2
  cases h : bin_digits s with
  | nil => rfl
  | cons a t =>
    cases t with
    | nil => simp [starts_hex]
    | cons b u =>
      have hb := hmem b (by rw [h]; simp)
      rcases hb with rfl | rfl <;> simp [starts_hex]

/-- C8: a raw literal that does not start with `0x`/`0X` and holds only `0`,
`1`, space and underscore (at most 512 `0`/`1` characters) parses to exactly
its `0`/`1` characters in order, and so parses like the same literal without
its spaces and underscores; a literal holding any other character is fatal. -/
theorem parse_raw_bits_binary (raw : List Char) (hnohex : starts_hex raw = false) :
    ((∀ p ∈ raw, p ∈ bin_chars) → (bin_digits raw).length ≤ 512 →
      parse_raw_bits (some raw) 512 = Except.ok (bin_cells raw) ∧
      parse_raw_bits (some (strip_separators raw)) 512 = parse_raw_bits (some raw) 512) ∧
    ((∃ p ∈ raw, p ∉ bin_chars) →
      parse_raw_bits (some raw) 512 = die "invalid char in raw bits"
        ∨ parse_raw_bits (some raw) 512 = die "raw bits too long") := by
  constructor
  · intro hall hlen
    have h1 : parse_raw_bits (some raw) 512 = Except.ok (bin_cells raw) := by
      rw [parse_raw_bits_no_hex 512 raw hnohex, parse_bin_loop_ok 512 raw [] hall (by simpa using hlen)]
      simp
    refine ⟨h1, ?_⟩
    have hall2 : ∀ p ∈ bin_digits raw, p ∈ bin_chars := by
      intro p hp
      exact hall p (List.mem_of_mem_filter hp)
    rw [h1, strip_separators_eq raw hall, parse_raw_bits_no_hex 512 _ (bin_digits_no_hex raw),
      parse_bin_loop_ok 512 _ [] hall2 (by rw [bin_digits_idem]; simpa using hlen)]
    simp [bin_cells, bin_digits_idem]
  · intro hbad
    rw [parse_raw_bits_no_hex 512 raw hnohex]
    exact parse_bin_loop_bad 512 raw [] hbad

/-- C8 at `1010_0101` and `10100101`, which both parse to `1 0 1 0 0 1 0 1`,
and at `10a1`, which is fatal. -/
theorem parse_raw_bits_binary_witness :
    parse_raw_bits (some "1010_0101".toList) 512 = Except.ok [1, 0, 1, 0, 0, 1, 0, 1] ∧
    parse_raw_bits (some "10100101".toList) 512 = Except.ok [1, 0, 1, 0, 0, 1, 0, 1] ∧
    strip_separators "1010_0101".toList = "10100101".toList ∧
    (parse_raw_bits (some "1010_0101".toList) 512 = Except.ok (bin_cells "1010_0101".toList) ∧
      parse_raw_bits (some (strip_separators "1010_0101".toList)) 512
        = parse_raw_bits (some "1010_0101".toList) 512) ∧
    (parse_raw_bits (some "10a1".toList) 512 = die "invalid char in raw bits"
        ∨ parse_raw_bits (some "10a1".toList) 512 = die "raw bits too long") :=
  ⟨by decide, by decide, by decide,
    (parse_raw_bits_binary "1010_0101".toList (by decide)).1 (by decide) (by decide),
    (parse_raw_bits_binary "10a1".toList (by decide)).2 ⟨ 'a', by decide, by decide⟩⟩

/-! ## Configuration checks -/

theorem main_of_build_frame_error (cfg : cfg_t) (hw : hw_t) (e : exit_t)
    (h : build_frame cfg = Except.error e) : main cfg hw = (Except.error e, []) := by
  unfold main
  rw [h]

theorem pulse_loop_exit (cfg : cfg_t) (hw : hw_t) : ∀ (frame : List Nat) (k : Nat)
    (tr : List event_t),
    (∃ k2, (pulse_loop cfg hw frame k tr).1 = Except.ok k2)
      ∨ (pulse_loop cfg hw frame k tr).1 = die "set low failed"
      ∨ (pulse_loop cfg hw frame k tr).1 = die "set high failed" := by
  intro frame
  induction frame with
  | nil => intro k tr; left; exact ⟨k, rfl⟩
  | cons b rest ih =>
    intro k tr
    unfold pulse_loop
    by_cases h1 : hw.set_ok k = true
    · by_cases h2 : hw.set_ok (k + 1) = true
      · simp only [h1, h2, Bool.not_true, Bool.false_eq_true, if_false]
        exact ih _ _
      · right; right
        simp [h1, h2]
    · right; left
      simp [h1]

theorem main_exit_of_frame (cfg : cfg_t) (hw : hw_t) (frame : List Nat)
    (h : build_frame cfg = Except.ok frame) :
    (main cfg hw).1 = Except.ok () ∨ ∃ m ∈ hw_messages, (main cfg hw).1 = die m := by
  unfold main
  rw [h]
  simp only
  by_cases h1 : hw.chip_open = true
  swap
  · right; exact ⟨"open gpiochip failed", by simp [hw_messages], by simp [h1]⟩
  by_cases h2 : hw.line_settings_new = true
  swap
  · right; exact ⟨"line_settings_new failed", by simp [hw_messages], by simp [h1, h2]⟩
  by_cases h3 : hw.line_config_new = true
  swap
  · right; exact ⟨"line_config_new failed", by simp [hw_messages], by simp [h1, h2, h3]⟩
  by_cases h4 : hw.add_line_settings = true
  swap
  · right
    exact ⟨"line_config_add_line_settings failed", by simp [hw_messages], by simp [h1, h2, h3, h4]⟩
  by_cases h5 : hw.request_config_new = true
  swap
  · right
    exact ⟨"request_config_new failed", by simp [hw_messages], by simp [h1, h2, h3, h4, h5]⟩
  by_cases h6 : hw.request_lines = true
  swap
  · right
    exact ⟨"chip_request_lines failed (permissions or busy?)", by simp [hw_messages],
      by simp [h1, h2, h3, h4, h5, h6]⟩
  by_cases h7 : hw.set_ok 0 = true
  swap
  · right
    exact ⟨"set idle high failed", by simp [hw_messages], by simp [h1, h2, h3, h4, h5, h6, h7]⟩
  simp only [h1, h2, h3, h4, h5, h6, h7, Bool.not_true, Bool.false_eq_true, if_false]
  generalize htr : [event_t.chip_open cfg.chip_name] ++ [event_t.request_lines cfg.d0_line cfg.d1_line]
    ++ [event_t.set_values 1 1] ++ [event_t.sleep_us 2000] = tr
  have hp := pulse_loop_exit cfg hw frame 1 tr
  rcases hres : pulse_loop cfg hw frame 1 tr with ⟨r, tr3⟩
  rw [hres] at hp
  simp only at hp
  rcases hp with ⟨k2, hk⟩ | hk | hk
  · subst hk
    simp only
    by_cases h8 : hw.set_ok k2 = true
    · left; simp [h8]
    · right; exact ⟨"restore high failed", by simp [hw_messages], by simp [h8]⟩
  · subst hk
    right; exact ⟨"set low failed", by simp [hw_messages], by simp [die]⟩
  · subst hk
    right; exact ⟨"set high failed", by simp [hw_messages], by simp [die]⟩

theorem not_hw_message_width : ∀ m ∈ hw_messages, m ≠ "facility/card exceeds width" := by
  decide

theorem one_shl_mod (w : Nat) (hw : w ≤ 63) : (1 <<< w) % 2 ^ 64 = 2 ^ w := by
  rw [Nat.one_shiftLeft]
  exact Nat.mod_eq_of_lt (Nat.pow_lt_pow_right (by decide) (by omega))

/-- The width check of field mode, with the widths resolved to `fb, cb ≤ 63`. -/
theorem build_data_width_check (cfg : cfg_t) (hraw : cfg.raw_bits = none)
    (hfmt : cfg.format_bits = 26 ∨ cfg.format_bits = 34 ∨ cfg.format_bits = 35
      ∨ cfg.format_bits = 37 ∨ cfg.format_bits = 48)
    (fb cb : Nat) (hres : resolve_widths cfg = ((fb : Int), (cb : Int)))
    (hfb : fb ≤ 63) (hcb : cb ≤ 63) :
    build_data cfg = die "facility/card exceeds width"
      ↔ (cfg.facility ≥ 2 ^ fb ∨ cfg.card ≥ 2 ^ cb) := by
  unfold build_data
  rw [hraw]
  simp only [hfmt, not_true_eq_false, if_false, hres, Int.toNat_ofNat,
    one_shl_mod fb hfb, one_shl_mod cb hcb]
  rw [if_neg (by omega)]
  by_cases hf : cfg.facility ≥ 2 ^ fb
  · rw [if_pos hf]
    simp only [hf, true_or]
  · rw [if_neg hf, if_neg (by omega)]
    by_cases hc : cfg.card ≥ 2 ^ cb
    · rw [if_pos hc]
      simp only [hc, or_true]
    · rw [if_neg hc]
      simp only [hf, hc, or_self, iff_false]
      unfold compose_fields
      rw [if_neg (by omega)]
      simp only
      split_ifs <;> simp [die]

/-- C9: in field mode with a supported format id and resolved widths
`fb, cb` in `0..63`, the run ends with `facility/card exceeds width` exactly
when `facility ≥ 2^fb` or `card ≥ 2^cb` (the earlier checks of the line offsets
and the timing having passed); so `facility = 2^fb` is rejected and
`facility = 2^fb - 1` with `card < 2^cb` passes the width check. -/
theorem width_check_iff (cfg : cfg_t) (hraw : cfg.raw_bits = none)
    (hfmt : cfg.format_bits = 26 ∨ cfg.format_bits = 34 ∨ cfg.format_bits = 35
      ∨ cfg.format_bits = 37 ∨ cfg.format_bits = 48)
    (fb cb : Nat) (hres : resolve_widths cfg = ((fb : Int), (cb : Int)))
    (hfb : fb ≤ 63) (hcb : cb ≤ 63) (hcheck : check_cfg cfg = Except.ok ()) :
    (build_data cfg = die "facility/card exceeds width"
      ↔ (cfg.facility ≥ 2 ^ fb ∨ cfg.card ≥ 2 ^ cb)) ∧
    (∀ hw, (main cfg hw).1 = die "facility/card exceeds width"
      ↔ (cfg.facility ≥ 2 ^ fb ∨ cfg.card ≥ 2 ^ cb)) ∧
    (cfg.facility ≥ 2 ^ fb ∨ cfg.card ≥ 2 ^ cb →
      ∀ hw, main cfg hw = (die "facility/card exceeds width", [])) ∧
    (cfg.facility = 2 ^ fb → build_data cfg = die "facility/card exceeds width") ∧
    (cfg.facility = 2 ^ fb - 1 → cfg.card < 2 ^ cb →
      build_data cfg ≠ die "facility/card exceeds width") := by
  have hdata := build_data_width_check cfg hraw hfmt fb cb hres hfb hcb
  have hfwd : cfg.facility ≥ 2 ^ fb ∨ cfg.card ≥ 2 ^ cb →
      build_frame cfg = die "facility/card exceeds width" := by
    intro hc
    unfold build_frame
    rw [hcheck, hdata.mpr hc]
    rfl
  have hbwd : build_frame cfg = die "facility/card exceeds width" →
      (cfg.facility ≥ 2 ^ fb ∨ cfg.card ≥ 2 ^ cb) := by
    intro hbf
    by_contra hc
    have hnd : build_data cfg ≠ die "facility/card exceeds width" := fun h => hc (hdata.mp h)
    unfold build_frame at hbf
    rw [hcheck] at hbf
    simp only at hbf
    cases hd : build_data cfg with
    | error e =>
      rw [hd] at hbf
      exact hnd (by rw [hd]; exact hbf)
    | ok data =>
      rw [hd] at hbf
      simp only at hbf
      cases hp : apply_parity data cfg.parity 520 with
      | error e =>
        rw [hp] at hbf
        simp only at hbf
        revert hp
        unfold apply_parity
        simp only
        split_ifs <;> simp_all [die]
      | ok frame =>
        rw [hp] at hbf
        simp only at hbf
        revert hbf
        split_ifs <;> simp [die]
  refine ⟨hdata, ?_, ?_, ?_, ?_⟩
  · intro hw
    constructor
    · intro hm
      apply hbwd
      cases hbf : build_frame cfg with
      | error e =>
        rw [main_of_build_frame_error cfg hw e hbf] at hm
        simp only [die, Except.error.injEq] at hm
        subst hm
        rfl
      | ok frame =>
        rcases main_exit_of_frame cfg hw frame hbf with h | ⟨m, hmem, h⟩
        · rw [h] at hm
          simp [die] at hm
        · rw [h] at hm
          simp only [die, Except.error.injEq, exit_t.die.injEq] at hm
          exact absurd hm (not_hw_message_width m hmem)
    · intro hc
      rw [main_of_build_frame_error cfg hw _ (hfwd hc)]
      rfl
  · intro hc hw
    exact main_of_build_frame_error cfg hw _ (hfwd hc)
  · intro hf
    exact hdata.mpr (Or.inl (by omega))
  · intro hf hcard hbad
    have hpos : 0 < 2 ^ fb := Nat.pow_pos (by decide)
    rcases hdata.mp hbad with h | h <;> omega

/-- C9 at format 26 (widths 8 and 16): facility 256 is rejected, facility 255
is encoded. -/
theorem width_check_iff_witness :
    main cfg_fac256 hw_ok = (die "facility/card exceeds width", []) ∧
    build_data cfg_fac256 = die "facility/card exceeds width" ∧
    build_data cfg_fac255 ≠ die "facility/card exceeds width" ∧
    build_frame cfg_fac255
      = Except.ok [1, 1,1,1,1,1,1,1,1, 0,0,0,0,0,0,0,0,0,0,0,0,0,0,0,0, 0] :=
  ⟨(width_check_iff cfg_fac256 rfl (by decide) 8 16 (by decide) (by decide) (by decide)
      (by decide)).2.2.1 (Or.inl (by decide)) hw_ok,
    (width_check_iff cfg_fac256 rfl (by decide) 8 16 (by decide) (by decide) (by decide)
      (by decide)).2.2.2.1 (by decide),
    (width_check_iff cfg_fac255 rfl (by decide) 8 16 (by decide) (by decide) (by decide)
      (by decide)).2.2.2.2 (by decide) (by decide),
    by decide⟩

/-- C10: with both line offsets present, the timing check passes exactly when
`20 ≤ pulse_us ≤ 5000` and `space_us ≥ pulse_us`; otherwise the run ends with
a fatal error, whatever the rest of the configuration, and no device call is
made. -/
theorem timing_check_iff (cfg : cfg_t) (hd0 : 0 ≤ int_of_unsigned cfg.d0_line)
    (hd1 : 0 ≤ int_of_unsigned cfg.d1_line) :
    (check_cfg cfg = Except.ok ()
      ↔ (20 ≤ cfg.pulse_us ∧ cfg.pulse_us ≤ 5000 ∧ cfg.space_us ≥ cfg.pulse_us)) ∧
    (cfg.pulse_us < 20 ∨ cfg.pulse_us > 5000 →
      build_frame cfg = die "pulse-us out of range" ∧
      ∀ hw, main cfg hw = (die "pulse-us out of range", [])) ∧
    (20 ≤ cfg.pulse_us → cfg.pulse_us ≤ 5000 → cfg.space_us < cfg.pulse_us →
      build_frame cfg = die "space-us must be >= pulse-us" ∧
      ∀ hw, main cfg hw = (die "space-us must be >= pulse-us", [])) := by
  have hoff : ¬ (int_of_unsigned cfg.d0_line < 0 ∨ int_of_unsigned cfg.d1_line < 0) := by omega
  refine ⟨?_, ?_, ?_⟩
  · unfold check_cfg
    rw [if_neg hoff]
    split_ifs with h1 h2
    · simp only [die, reduceCtorEq, false_iff]
      omega
    · simp only [die, reduceCtorEq, false_iff]
      omega
    · simp only [true_iff]
      omega
  · intro h
    have hc : check_cfg cfg = die "pulse-us out of range" := by
      unfold check_cfg
      rw [if_neg hoff, if_pos h]
    have hb : build_frame cfg = die "pulse-us out of range" := by
      unfold build_frame
      rw [hc]
      rfl
    exact ⟨hb, fun hw => main_of_build_frame_error cfg hw _ hb⟩
  · intro h1 h2 h3
    have hc : check_cfg cfg = die "space-us must be >= pulse-us" := by
      unfold check_cfg
      rw [if_neg hoff, if_neg (by omega), if_pos h3]
    have hb : build_frame cfg = die "space-us must be >= pulse-us" := by
      unfold build_frame
      rw [hc]
      rfl
    exact ⟨hb, fun hw => main_of_build_frame_error cfg hw _ hb⟩

/-- C10 at the default timing (50, 1000), which passes, at `pulse_us = 10` and
at `space_us = 99 < pulse_us = 100`, which are fatal. -/
theorem timing_check_iff_witness :
    check_cfg cfg_lines = Except.ok () ∧
    main cfg_pulse10 hw_ok = (die "pulse-us out of range", []) ∧
    main cfg_space99 hw_ok = (die "space-us must be >= pulse-us", []) :=
  ⟨(timing_check_iff cfg_lines (by decide) (by decide)).1.mpr (by decide),
    ((timing_check_iff cfg_pulse10 (by decide) (by decide)).2.1 (Or.inl (by decide))).2 hw_ok,
    ((timing_check_iff cfg_space99 (by decide) (by decide)).2.2 (by decide) (by decide)
      (by decide)).2 hw_ok⟩

/-! ## Frame length expectation -/

/-- C11: when `frame_bits > 0` is given and the frame built by `apply_parity`
has another length, the run ends with `frame-bits mismatch` and no device call
is made; so every frame that reaches transmission has length `frame_bits`. -/
theorem frame_bits_mismatch (cfg : cfg_t) (hfb : cfg.frame_bits > 0) :
    (∀ data frame, check_cfg cfg = Except.ok () → build_data cfg = Except.ok data →
      apply_parity data cfg.parity 520 = Except.ok frame →
      (frame.length : Int) ≠ cfg.frame_bits →
      build_frame cfg = die "frame-bits mismatch" ∧
      ∀ hw, main cfg hw = (die "frame-bits mismatch", [])) ∧
    (∀ frame, build_frame cfg = Except.ok frame → (frame.length : Int) = cfg.frame_bits) ∧
    (∀ hw, (main cfg hw).2 ≠ [] →
      ∃ frame, build_frame cfg = Except.ok frame ∧ (frame.length : Int) = cfg.frame_bits) := by
  have hlen : ∀ frame, build_frame cfg = Except.ok frame →
      (frame.length : Int) = cfg.frame_bits := by
    intro frame h
    unfold build_frame at h
    split at h
    · cases h
    · split at h
      · cases h
      · split at h
        · cases h
        · split_ifs at h with hc
          · simp [die] at h
          · cases h
            by_contra hne
            exact hc ⟨hfb, fun e => hne e.symm⟩
  refine ⟨?_, hlen, ?_⟩
  · intro data frame hck hd hp hne
    have hb : build_frame cfg = die "frame-bits mismatch" := by
      unfold build_frame
      rw [hck]
      simp only
      rw [hd]
      simp only
      rw [hp]
      simp only
      rw [if_pos ⟨hfb, fun e => hne e.symm⟩]
    exact ⟨hb, fun hw => main_of_build_frame_error cfg hw _ hb⟩
  · intro hw hne
    cases hb : build_frame cfg with
    | error e =>
      rw [main_of_build_frame_error cfg hw e hb] at hne
      exact absurd rfl hne
    | ok frame => exact ⟨frame, rfl, hlen frame hb⟩

/-- C11 at format 26 with Standard parity (a 26-bit frame): `--frame-bits 30`
is fatal, `--frame-bits 26` reaches transmission. -/
theorem frame_bits_mismatch_witness :
    main cfg_frame30 hw_ok = (die "frame-bits mismatch", []) ∧
    (∀ frame, build_frame cfg_frame26 = Except.ok frame → (frame.length : Int) = 26) ∧
    (∃ frame, build_frame cfg_frame26 = Except.ok frame ∧ frame.length = 26) :=
  ⟨((frame_bits_mismatch cfg_frame30 (by decide)).1
      (List.replicate 24 0) (1 :: List.replicate 24 0 ++ [0]) (by decide) (by decide)
      (by decide) (by decide)).2 hw_ok,
    (frame_bits_mismatch cfg_frame26 (by decide)).2.1,
    ⟨1 :: List.replicate 24 0 ++ [0], by decide, by decide⟩⟩

/-! ## Line offsets -/

/-- C12, as the claim states it, fails: with `--d0 17 --d1 17` the validation
passes, the frame is built and the device is opened. -/
theorem equal_offsets_not_rejected :
    cfg_same_line.d0_line = cfg_same_line.d1_line ∧
    check_cfg cfg_same_line = Except.ok () ∧
    (∃ frame, build_frame cfg_same_line = Except.ok frame) ∧
    (main cfg_same_line hw_ok).1 = Except.ok () ∧
    (main cfg_same_line hw_ok).2.head? = some (event_t.chip_open "gpiochip0") := by
  refine ⟨rfl, by decide, ⟨1 :: List.replicate 24 0 ++ [0], by decide⟩, by decide, by decide⟩

/-- C12, amended: a configuration with a missing line offset (a value that is
negative as an `int`, such as the initial `(unsigned)-1`) is rejected with the
usage text before any device call; the offsets are not compared, so with both
present and valid timing the validation passes, also when `d0 = d1`. -/
theorem offsets_validation (cfg : cfg_t) :
    (int_of_unsigned cfg.d0_line < 0 ∨ int_of_unsigned cfg.d1_line < 0 →
      check_cfg cfg = Except.error exit_t.usage ∧
      ∀ hw, main cfg hw = (Except.error exit_t.usage, [])) ∧
    (cfg.d0_line = 2 ^ 32 - 1 ∨ cfg.d1_line = 2 ^ 32 - 1 →
      ∀ hw, main cfg hw = (Except.error exit_t.usage, [])) ∧
    (0 ≤ int_of_unsigned cfg.d0_line → 0 ≤ int_of_unsigned cfg.d1_line →
      20 ≤ cfg.pulse_us → cfg.pulse_us ≤ 5000 → cfg.pulse_us ≤ cfg.space_us →
      check_cfg cfg = Except.ok ()) := by
  have hmiss : int_of_unsigned cfg.d0_line < 0 ∨ int_of_unsigned cfg.d1_line < 0 →
      check_cfg cfg = Except.error exit_t.usage ∧
      ∀ hw, main cfg hw = (Except.error exit_t.usage, []) := by
    intro h
    have hc : check_cfg cfg = Except.error exit_t.usage := by
      unfold check_cfg
      rw [if_pos h]
    have hb : build_frame cfg = Except.error exit_t.usage := by
      unfold build_frame
      rw [hc]
    exact ⟨hc, fun hw => main_of_build_frame_error cfg hw _ hb⟩
  refine ⟨hmiss, ?_, ?_⟩
  · intro h
    apply (hmiss _).2
    rcases h with h | h
    · left; rw [h]; decide
    · right; rw [h]; decide
  · intro h0 h1 hp1 hp2 hs
    unfold check_cfg
    rw [if_neg (by omega), if_neg (by omega), if_neg (by omega)]

/-- C12 amended, at a configuration without `--d1` (rejected with the usage
text) and at the offsets 17 and 27 with the default timing (accepted). -/
theorem offsets_validation_witness :
    main cfg_no_d1 hw_ok = (Except.error exit_t.usage, []) ∧
    main cfg_init hw_ok = (Except.error exit_t.usage, []) ∧
    check_cfg cfg_lines = Except.ok () :=
  ⟨((offsets_validation cfg_no_d1).1 (Or.inr (by decide))).2 hw_ok,
    (offsets_validation cfg_init).2.1 (Or.inl rfl) hw_ok,
    (offsets_validation cfg_lines).2.2 (by decide) (by decide) (by decide) (by decide)
      (by decide)⟩

/-! ## Field mode: data bits and padding -/

theorem field_cells_length (f fb c cb : Nat) : (field_cells f fb c cb).length = fb + cb := by
  simp [field_cells]

theorem compose_fields_eq (f fb c cb : Nat) (h : fb + cb ≤ 512) :
    compose_fields f fb c cb 512 = Except.ok (field_cells f fb c cb) := by
  unfold compose_fields
  rw [if_neg (by omega)]
  rfl

/-- The data stage in field mode once the width check has passed. -/
theorem build_data_field (cfg : cfg_t) (hraw : cfg.raw_bits = none)
    (hfmt : cfg.format_bits = 26 ∨ cfg.format_bits = 34 ∨ cfg.format_bits = 35
      ∨ cfg.format_bits = 37 ∨ cfg.format_bits = 48)
    (fb cb : Nat) (hres : resolve_widths cfg = ((fb : Int), (cb : Int)))
    (hfb : fb ≤ 63) (hcb : cb ≤ 63) (hf : cfg.facility < 2 ^ fb) (hc : cfg.card < 2 ^ cb) :
    build_data cfg =
      if cfg.parity = PAR_NONE ∧ cfg.frame_bits > 0 then
        if cfg.frame_bits < ((fb + cb : Nat) : Int) then die "frame-bits < data bits"
        else if cfg.frame_bits > ((fb + cb : Nat) : Int) then
          if cfg.frame_bits > 512 then die "frame-bits too large"
          else Except.ok (List.replicate (cfg.frame_bits - ((fb + cb : Nat) : Int)).toNat 0
            ++ field_cells cfg.facility fb cfg.card cb)
        else Except.ok (field_cells cfg.facility fb cfg.card cb)
      else Except.ok (field_cells cfg.facility fb cfg.card cb) := by
  unfold build_data
  rw [hraw]
  simp only [hfmt, not_true_eq_false, if_false, hres, Int.toNat_ofNat,
    one_shl_mod fb hfb, one_shl_mod cb hcb]
  rw [if_neg (by omega), if_neg (by omega), if_neg (by omega), if_neg (by omega),
    compose_fields_eq _ _ _ _ (by omega)]
  simp only [field_cells_length]

/-- C13: in field mode with parity None and `frame_bits > 0`, `L = fb+cb` being
the composed length: `frame_bits < L` is fatal, `frame_bits > 512` is fatal,
`L < frame_bits ≤ 512` gives `frame_bits - L` zero bits followed by the composed
bits (length `frame_bits`), and `frame_bits = L` leaves the composed bits. -/
theorem field_padding (cfg : cfg_t) (hraw : cfg.raw_bits = none)
    (hfmt : cfg.format_bits = 26 ∨ cfg.format_bits = 34 ∨ cfg.format_bits = 35
      ∨ cfg.format_bits = 37 ∨ cfg.format_bits = 48)
    (fb cb : Nat) (hres : resolve_widths cfg = ((fb : Int), (cb : Int)))
    (hfb : fb ≤ 63) (hcb : cb ≤ 63) (hf : cfg.facility < 2 ^ fb) (hc : cfg.card < 2 ^ cb)
    (hpar : cfg.parity = PAR_NONE) (hbits : cfg.frame_bits > 0) :
    compose_fields cfg.facility fb cfg.card cb 512
        = Except.ok (field_cells cfg.facility fb cfg.card cb) ∧
    (field_cells cfg.facility fb cfg.card cb).length = fb + cb ∧
    (cfg.frame_bits < ((fb + cb : Nat) : Int) → build_data cfg = die "frame-bits < data bits") ∧
    (cfg.frame_bits > 512 → build_data cfg = die "frame-bits too large") ∧
    (((fb + cb : Nat) : Int) < cfg.frame_bits → cfg.frame_bits ≤ 512 →
      build_data cfg = Except.ok
        (List.replicate (cfg.frame_bits - ((fb + cb : Nat) : Int)).toNat 0
          ++ field_cells cfg.facility fb cfg.card cb) ∧
      (((List.replicate (cfg.frame_bits - ((fb + cb : Nat) : Int)).toNat 0
          ++ field_cells cfg.facility fb cfg.card cb).length : Nat) : Int) = cfg.frame_bits) ∧
    (cfg.frame_bits = ((fb + cb : Nat) : Int) →
      build_data cfg = Except.ok (field_cells cfg.facility fb cfg.card cb)) ∧
    (check_cfg cfg = Except.ok () →
      cfg.frame_bits < ((fb + cb : Nat) : Int) ∨ cfg.frame_bits > 512 →
      ∀ hw, main cfg hw = (die "frame-bits < data bits", [])
        ∨ main cfg hw = (die "frame-bits too large", [])) := by
  have hdata := build_data_field cfg hraw hfmt fb cb hres hfb hcb hf hc
  rw [if_pos ⟨hpar, hbits⟩] at hdata
  have hsmall : cfg.frame_bits < ((fb + cb : Nat) : Int) →
      build_data cfg = die "frame-bits < data bits" := by
    intro h
    rw [hdata, if_pos h]
  have hlarge : cfg.frame_bits > 512 → build_data cfg = die "frame-bits too large" := by
    intro h
    rw [hdata, if_neg (by omega), if_pos (by omega), if_pos h]
  refine ⟨compose_fields_eq _ _ _ _ (by omega), field_cells_length _ _ _ _, hsmall, hlarge,
    ?_, ?_, ?_⟩
  · intro h1 h2
    refine ⟨?_, ?_⟩
    · rw [hdata, if_neg (by omega), if_pos (by omega), if_neg (by omega)]
    · simp only [List.length_append, List.length_replicate, field_cells_length]
      omega
  · intro h
    rw [hdata, if_neg (by omega), if_neg (by omega)]
  · intro hck h hw
    have hfr : ∀ m, build_data cfg = die m → build_frame cfg = die m := by
      intro m hm
      unfold build_frame
      rw [hck]
      simp only
      rw [hm]
      rfl
    rcases h with h | h
    · left
      exact main_of_build_frame_error cfg hw _ (hfr _ (hsmall h))
    · right
      exact main_of_build_frame_error cfg hw _ (hfr _ (hlarge h))

/-- C13 at format 26, facility 5, card 1234 (24 composed bits): 30 pads six
zero bits, 24 changes nothing, 20 and 513 are fatal. -/
theorem field_padding_witness :
    build_data cfg_pad30 = Except.ok
      [0,0,0,0,0,0, 0,0,0,0,0,1,0,1, 0,0,0,0,0,1,0,0,1,1,0,1,0,0,1,0] ∧
    build_data cfg_pad24 = Except.ok (field_cells 5 8 1234 16) ∧
    build_data cfg_pad20 = die "frame-bits < data bits" ∧
    build_data cfg_pad513 = die "frame-bits too large" ∧
    (build_data cfg_pad30 = Except.ok
        (List.replicate (cfg_pad30.frame_bits - ((8 + 16 : Nat) : Int)).toNat 0
          ++ field_cells cfg_pad30.facility 8 cfg_pad30.card 16) ∧
      (((List.replicate (cfg_pad30.frame_bits - ((8 + 16 : Nat) : Int)).toNat 0
          ++ field_cells cfg_pad30.facility 8 cfg_pad30.card 16).length : Nat) : Int)
        = cfg_pad30.frame_bits) :=
  ⟨by decide,
    (field_padding cfg_pad24 rfl (by decide) 8 16 (by decide) (by decide) (by decide)
      (by decide) (by decide) rfl (by decide)).2.2.2.2.2.1 (by decide),
    (field_padding cfg_pad20 rfl (by decide) 8 16 (by decide) (by decide) (by decide)
      (by decide) (by decide) rfl (by decide)).2.2.1 (by decide),
    (field_padding cfg_pad513 rfl (by decide) 8 16 (by decide) (by decide) (by decide)
      (by decide) (by decide) rfl (by decide)).2.2.2.1 (by decide),
    (field_padding cfg_pad30 rfl (by decide) 8 16 (by decide) (by decide) (by decide)
      (by decide) (by decide) rfl (by decide)).2.2.2.2.1 (by decide) (by decide)⟩

/-! ## Transmission -/

theorem pulse_loop_ok (cfg : cfg_t) (hw : hw_t) : ∀ (frame : List Nat) (k : Nat)
    (tr : List event_t), (∀ i, i < 2 * frame.length → hw.set_ok (k + i) = true) →
    pulse_loop cfg hw frame k tr
      = (Except.ok (k + 2 * frame.length), tr ++ pulse_events cfg frame) := by
  intro frame
  induction frame with
  | nil => intro k tr _; simp [pulse_loop, pulse_events]
  | cons b rest ih =>
    intro k tr h
    have h0 : hw.set_ok k = true := by
      have := h 0 (by simp)
      simpa using this
    have h1 : hw.set_ok (k + 1) = true := h 1 (by simp only [List.length_cons]; omega)
    have hrest : ∀ i, i < 2 * rest.length → hw.set_ok (k + 2 + i) = true := by
      intro i hi
      have := h (i + 2) (by simp only [List.length_cons]; omega)
      rw [show k + 2 + i = k + (i + 2) by omega]
      exact this
    unfold pulse_loop
    simp only [h0, h1, Bool.not_true, Bool.false_eq_true, if_false]
    rw [ih _ _ hrest]
    simp only [pulse_events, pulse_line, List.length_cons, List.append_assoc, List.cons_append,
      List.nil_append, Prod.mk.injEq, Except.ok.injEq, and_true]
    omega

theorem line_ops_pulse_events (cfg : cfg_t) (frame : List Nat) :
    line_ops (pulse_events cfg frame) = pulse_ops cfg frame := by
  induction frame with
  | nil => rfl
  | cons b rest ih =>
    unfold line_ops at ih ⊢
    simp [pulse_events, pulse_ops, is_line_op, ih]

theorem pulse_ops_length (cfg : cfg_t) (frame : List Nat) :
    (pulse_ops cfg frame).length = 2 * frame.length := by
  induction frame with
  | nil => rfl
  | cons b rest ih => simp [pulse_ops, ih]; omega

theorem pulse_ops_get (cfg : cfg_t) : ∀ (frame : List Nat) (i b : Nat), frame[i]? = some b →
    (pulse_ops cfg frame)[2 * i]? = some (event_t.set_value (pulse_line cfg b) 0) ∧
    (pulse_ops cfg frame)[2 * i + 1]? = some (event_t.set_value (pulse_line cfg b) 1) := by
  intro frame
  induction frame with
  | nil => intro i b h; simp at h
  | cons a rest ih =>
    intro i b h
    cases i with
    | zero =>
      simp at h
      subst h
      simp [pulse_ops]
    | succ i =>
      simp at h
      obtain ⟨h0, h1⟩ := ih i b h
      have e0 : 2 * (i + 1) = (2 * i + 1) + 1 := by omega
      have e1 : 2 * (i + 1) + 1 = ((2 * i + 1) + 1) + 1 := by omega
      unfold pulse_ops
      refine ⟨?_, ?_⟩
      · rw [e0]; simpa using h0
      · rw [e1]; simpa using h1

/-- The run once the lines are acquired: lines 207-220. -/
theorem main_acquired (cfg : cfg_t) (hw : hw_t) (frame : List Nat)
    (hfr : build_frame cfg = Except.ok frame) (hacq : acquired hw) :
    main cfg hw =
      if !hw.set_ok 0 then
        (die "set idle high failed",
          [event_t.chip_open cfg.chip_name, event_t.request_lines cfg.d0_line cfg.d1_line,
            event_t.set_values 1 1])
      else
        match pulse_loop cfg hw frame 1
            [event_t.chip_open cfg.chip_name, event_t.request_lines cfg.d0_line cfg.d1_line,
              event_t.set_values 1 1, event_t.sleep_us 2000] with
        | (Except.error e, tr3) => (Except.error e, tr3)
        | (Except.ok k, tr3) =>
          if !hw.set_ok k then (die "restore high failed", tr3 ++ [event_t.set_values 1 1])
          else (Except.ok (), tr3 ++ [event_t.set_values 1 1] ++ [event_t.release,
            event_t.chip_close]) := by
  obtain ⟨h1, h2, h3, h4, h5, h6⟩ := hacq
  unfold main
  rw [hfr]
  simp only [h1, h2, h3, h4, h5, h6, Bool.not_true, Bool.false_eq_true, if_false,
    List.cons_append, List.nil_append]

/-! ## Every frame is a sequence of bits -/

theorem bits_append {l1 l2 : List Nat} (h1 : ∀ b ∈ l1, b < 2) (h2 : ∀ b ∈ l2, b < 2) :
    ∀ b ∈ l1 ++ l2, b < 2 := by
  intro b hb
  rcases List.mem_append.mp hb with hm | hm
  · exact h1 b hm
  · exact h2 b hm

theorem bits_singleton (x : Nat) (hx : x < 2) : ∀ b ∈ [x], b < 2 := by
  intro b hb
  rw [List.mem_singleton.mp hb]
  exact hx

theorem parse_hex_loop_bits (max : Nat) : ∀ (s : List Char) (bits out : List Nat),
    (∀ b ∈ bits, b < 2) → parse_hex_loop max s bits = Except.ok out → ∀ b ∈ out, b < 2 := by
  intro s
  induction s with
  | nil =>
    intro bits out hb h
    simp only [parse_hex_loop, Except.ok.injEq] at h
    rw [← h]
    exact hb
  | cons q rest ih =>
    intro bits out hb h
    unfold parse_hex_loop at h
    by_cases h1 : (!is_hex q) = true
    · rw [if_pos h1] at h
      simp [die] at h
    · rw [if_neg h1] at h
      by_cases h2 : bits.length + 4 > max
      · rw [if_pos h2] at h
        simp [die] at h
      · rw [if_neg h2] at h
        refine ih _ out ?_ h
        refine bits_append hb ?_
        intro b hmem
        simp only [List.mem_cons, List.mem_singleton, List.not_mem_nil, or_false] at hmem
        rcases hmem with hm | hm | hm | hm <;> (rw [hm]; split_ifs <;> decide)

theorem parse_bin_loop_bits (max : Nat) : ∀ (s : List Char) (bits out : List Nat),
    (∀ b ∈ bits, b < 2) → parse_bin_loop max s bits = Except.ok out → ∀ b ∈ out, b < 2 := by
  intro s
  induction s with
  | nil =>
    intro bits out hb h
    simp only [parse_bin_loop, Except.ok.injEq] at h
    rw [← h]
    exact hb
  | cons p rest ih =>
    intro bits out hb h
    unfold parse_bin_loop at h
    by_cases h1 : p = '0' ∨ p = '1'
    · rw [if_pos h1] at h
      by_cases h2 : bits.length ≥ max
      · rw [if_pos h2] at h
        simp [die] at h
      · rw [if_neg h2] at h
        refine ih _ out ?_ h
        exact bits_append hb (bits_singleton _ (by split_ifs <;> decide))
    · rw [if_neg h1] at h
      by_cases h3 : p = ' ' ∨ p = '_'
      · rw [if_pos h3] at h
        exact ih _ out hb h
      · rw [if_neg h3] at h
        simp [die] at h

theorem parse_raw_bits_bits (max : Nat) (raw : Option (List Char)) (out : List Nat)
    (h : parse_raw_bits raw max = Except.ok out) : ∀ b ∈ out, b < 2 := by
  have hnil : ∀ b ∈ ([] : List Nat), b < 2 := by simp
  unfold parse_raw_bits at h
  split at h
  · simp only [Except.ok.injEq] at h
    rw [← h]
    exact hnil
  · split_ifs at h
    · simp [die] at h
    · exact parse_hex_loop_bits max _ [] out hnil h
  · split_ifs at h
    · simp [die] at h
    · exact parse_hex_loop_bits max _ [] out hnil h
  · exact parse_bin_loop_bits max _ [] out hnil h

theorem field_cells_bits (f fb c cb : Nat) : ∀ b ∈ field_cells f fb c cb, b < 2 := by
  intro b hb
  simp only [field_cells, List.mem_append, List.mem_map, List.mem_range] at hb
  rcases hb with ⟨i, _, rfl⟩ | ⟨i, _, rfl⟩
  · rw [Nat.and_one_is_mod]; omega
  · rw [Nat.and_one_is_mod]; omega

theorem build_data_bits (cfg : cfg_t) (data : List Nat) (h : build_data cfg = Except.ok data) :
    ∀ b ∈ data, b < 2 := by
  unfold build_data at h
  cases hraw : cfg.raw_bits with
  | some raw =>
    rw [hraw] at h
    exact parse_raw_bits_bits 512 _ data h
  | none =>
    rw [hraw] at h
    simp only at h
    by_cases h1 : ¬ (cfg.format_bits = 26 ∨ cfg.format_bits = 34 ∨ cfg.format_bits = 35
        ∨ cfg.format_bits = 37 ∨ cfg.format_bits = 48)
    · rw [if_pos h1] at h
      simp [die] at h
    · rw [if_neg h1] at h
      have h2 : ¬ (resolve_widths cfg).1 ≥ 64 := by
        intro hh
        rw [if_pos hh] at h
        cases h
      rw [if_neg h2] at h
      have h3 : ¬ cfg.facility ≥ (1 <<< (resolve_widths cfg).1.toNat) % 2 ^ 64 := by
        intro hh
        rw [if_pos hh] at h
        simp [die] at h
      rw [if_neg h3] at h
      have h2c : ¬ (resolve_widths cfg).2 ≥ 64 := by
        intro hh
        rw [if_pos hh] at h
        cases h
      rw [if_neg h2c] at h
      have h3c : ¬ cfg.card ≥ (1 <<< (resolve_widths cfg).2.toNat) % 2 ^ 64 := by
        intro hh
        rw [if_pos hh] at h
        simp [die] at h
      rw [if_neg h3c] at h
      cases hc : compose_fields cfg.facility (resolve_widths cfg).1.toNat cfg.card
          (resolve_widths cfg).2.toNat 512 with
      | error e =>
        rw [hc] at h
        cases h
      | ok d =>
        rw [hc] at h
        simp only at h
        have hdb : ∀ b ∈ d, b < 2 := by
          unfold compose_fields at hc
          by_cases h4 : (resolve_widths cfg).1.toNat + (resolve_widths cfg).2.toNat > 512
          · rw [if_pos h4] at hc
            simp [die] at hc
          · rw [if_neg h4] at hc
            simp only [Except.ok.injEq] at hc
            rw [← hc]
            exact field_cells_bits _ _ _ _
        by_cases h5 : cfg.parity = PAR_NONE ∧ cfg.frame_bits > 0
        · rw [if_pos h5] at h
          by_cases h6 : cfg.frame_bits < (d.length : Int)
          · rw [if_pos h6] at h
            simp [die] at h
          · rw [if_neg h6] at h
            by_cases h7 : cfg.frame_bits > (d.length : Int)
            · rw [if_pos h7] at h
              by_cases h8 : cfg.frame_bits > 512
              · rw [if_pos h8] at h
                simp [die] at h
              · rw [if_neg h8] at h
                simp only [Except.ok.injEq] at h
                rw [← h]
                refine bits_append ?_ hdb
                intro b hb
                rw [List.eq_of_mem_replicate hb]
                decide
            · rw [if_neg h7] at h
              simp only [Except.ok.injEq] at h
              rw [← h]
              exact hdb
        · rw [if_neg h5] at h
          simp only [Except.ok.injEq] at h
          rw [← h]
          exact hdb

theorem apply_parity_bits (data : List Nat) (mode : parity_mode_t) (max : Nat)
    (frame : List Nat) (hd : ∀ b ∈ data, b < 2)
    (h : apply_parity data mode max = Except.ok frame) : ∀ b ∈ frame, b < 2 := by
  unfold apply_parity at h
  simp only at h
  by_cases h1 : mode = PAR_NONE
  · rw [if_pos h1] at h
    by_cases h2 : data.length > max
    · rw [if_pos h2] at h
      simp [die] at h
    · rw [if_neg h2] at h
      simp only [Except.ok.injEq] at h
      rw [← h]
      exact hd
  · rw [if_neg h1] at h
    by_cases h3 : mode = PAR_WHOLE_EVEN ∨ mode = PAR_WHOLE_ODD
    · rw [if_pos h3] at h
      by_cases h4 : data.length + 1 > max
      · rw [if_pos h4] at h
        simp [die] at h
      · rw [if_neg h4] at h
        simp only [Except.ok.injEq] at h
        rw [← h]
        exact bits_append hd (bits_singleton _ (by split_ifs <;> decide))
    · rw [if_neg h3] at h
      by_cases h5 : data.length + 2 > max
      · rw [if_pos h5] at h
        simp [die] at h
      · rw [if_neg h5] at h
        simp only [Except.ok.injEq] at h
        rw [← h]
        exact bits_append (bits_append (bits_singleton _ (by split_ifs <;> decide)) hd)
          (bits_singleton _ (by split_ifs <;> decide))

theorem build_frame_bits (cfg : cfg_t) (frame : List Nat)
    (h : build_frame cfg = Except.ok frame) : ∀ b ∈ frame, b < 2 := by
  unfold build_frame at h
  split at h
  · cases h
  · split at h
    · cases h
    · rename_i data hd
      split at h
      · cases h
      · rename_i fr hp
        split_ifs at h
        · simp [die] at h
        · simp only [Except.ok.injEq] at h
          rw [← h]
          exact apply_parity_bits data cfg.parity 520 fr (build_data_bits cfg data hd) hp

/-! ## The failure-free transmission -/

theorem pulse_pair_levels (cfg : cfg_t) (hne : cfg.d0_line ≠ cfg.d1_line) (b : Nat) :
    drive cfg.d0_line cfg.d1_line (1, 1) (event_t.set_value (pulse_line cfg b) 0) ≠ (0, 0) ∧
    drive cfg.d0_line cfg.d1_line
      (drive cfg.d0_line cfg.d1_line (1, 1) (event_t.set_value (pulse_line cfg b) 0))
      (event_t.set_value (pulse_line cfg b) 1) = (1, 1) := by
  have hne2 : cfg.d1_line ≠ cfg.d0_line := fun h => hne h.symm
  unfold pulse_line drive
  by_cases hb : b = 0
  · simp [hb, hne]
  · simp [hb, hne2]

theorem pulse_levels_take (cfg : cfg_t) (hne : cfg.d0_line ≠ cfg.d1_line) :
    ∀ (frame : List Nat) (k : Nat),
    levels cfg.d0_line cfg.d1_line (1, 1) ((pulse_ops cfg frame).take k) ≠ (0, 0) := by
  intro frame
  induction frame with
  | nil => intro k; simp [pulse_ops, levels]
  | cons b rest ih =>
    intro k
    obtain ⟨h1, h2⟩ := pulse_pair_levels cfg hne b
    cases k with
    | zero => simp [levels]
    | succ k =>
      cases k with
      | zero =>
        simp only [pulse_ops, levels, List.take_succ_cons, List.take_zero, List.foldl_cons,
          List.foldl_nil]
        exact h1
      | succ k =>
        have := ih k
        simp only [levels] at this
        simp only [pulse_ops, levels, List.take_succ_cons, List.foldl_cons, h2]
        exact this

theorem pulse_levels_end (cfg : cfg_t) (hne : cfg.d0_line ≠ cfg.d1_line) :
    ∀ frame : List Nat, levels cfg.d0_line cfg.d1_line (1, 1) (pulse_ops cfg frame) = (1, 1) := by
  intro frame
  induction frame with
  | nil => rfl
  | cons b rest ih =>
    obtain ⟨_, h2⟩ := pulse_pair_levels cfg hne b
    simp only [levels] at ih
    simp only [pulse_ops, levels, List.foldl_cons, h2]
    exact ih

theorem expected_levels_take (cfg : cfg_t) (hne : cfg.d0_line ≠ cfg.d1_line)
    (frame : List Nat) (k : Nat) :
    levels cfg.d0_line cfg.d1_line (1, 1) ((expected_ops cfg frame).take k) ≠ (0, 0) := by
  cases k with
  | zero => simp [levels]
  | succ k =>
    unfold expected_ops
    simp only [List.take_succ_cons, levels, List.foldl_cons, drive, List.take_append_eq_append_take,
      List.foldl_append]
    have h1 := pulse_levels_take cfg hne frame k
    simp only [levels] at h1
    by_cases hk : k - (pulse_ops cfg frame).length = 0
    · rw [hk]
      simpa using h1
    · obtain ⟨m, hm⟩ := Nat.exists_eq_succ_of_ne_zero hk
      rw [hm]
      simp [drive]

theorem expected_ops_length (cfg : cfg_t) (frame : List Nat) :
    (expected_ops cfg frame).length = 2 * frame.length + 2 := by
  simp [expected_ops, pulse_ops_length]

theorem expected_ops_get (cfg : cfg_t) (frame : List Nat) (i b : Nat) (h : frame[i]? = some b) :
    (expected_ops cfg frame)[2 * i + 1]? = some (event_t.set_value (pulse_line cfg b) 0) ∧
    (expected_ops cfg frame)[2 * i + 2]? = some (event_t.set_value (pulse_line cfg b) 1) := by
  obtain ⟨h0, h1⟩ := pulse_ops_get cfg frame i b h
  have hi : i < frame.length := by
    rcases Nat.lt_or_ge i frame.length with hlt | hge
    · exact hlt
    · rw [List.getElem?_eq_none hge] at h
      cases h
  have hlen := pulse_ops_length cfg frame
  unfold expected_ops
  refine ⟨?_, ?_⟩
  · rw [List.getElem?_cons_succ, List.getElem?_append_left (by omega)]
    exact h0
  · rw [List.getElem?_cons_succ, List.getElem?_append_left (by omega)]
    exact h1

/-- The run when the lines are acquired and no line operation fails. -/
theorem main_no_failure (cfg : cfg_t) (hw : hw_t) (frame : List Nat)
    (hfr : build_frame cfg = Except.ok frame) (hacq : acquired hw)
    (hset : ∀ k, k < 2 * frame.length + 2 → hw.set_ok k = true) :
    main cfg hw = (Except.ok (),
      [event_t.chip_open cfg.chip_name, event_t.request_lines cfg.d0_line cfg.d1_line,
        event_t.set_values 1 1, event_t.sleep_us 2000] ++ pulse_events cfg frame
        ++ [event_t.set_values 1 1] ++ [event_t.release, event_t.chip_close]) := by
  rw [main_acquired cfg hw frame hfr hacq]
  have h0 : hw.set_ok 0 = true := hset 0 (by omega)
  have hloop := pulse_loop_ok cfg hw frame 1
    [event_t.chip_open cfg.chip_name, event_t.request_lines cfg.d0_line cfg.d1_line,
      event_t.set_values 1 1, event_t.sleep_us 2000]
    (fun i hi => hset (1 + i) (by omega))
  have hlast : hw.set_ok (1 + 2 * frame.length) = true := hset _ (by omega)
  simp only [h0, Bool.not_true, Bool.false_eq_true, if_false, hloop, hlast]

/-- C14: when the lines are acquired and no line operation fails, the line
operations issued for a frame of length `n` are: both lines high; for each
index `i` in order, line `L_i` low then line `L_i` high, with `L_i` the d0 line
for bit 0 and the d1 line for bit 1; both lines high. That is `2n` single-line
operations between two both-high operations, and with `d0 ≠ d1` the two lines
are never low at the same time. -/
theorem transmit_line_ops (cfg : cfg_t) (hw : hw_t) (frame : List Nat)
    (hfr : build_frame cfg = Except.ok frame) (hacq : acquired hw)
    (hset : ∀ k, k < 2 * frame.length + 2 → hw.set_ok k = true) :
    (main cfg hw).1 = Except.ok () ∧
    line_ops (main cfg hw).2
      = event_t.set_values 1 1 :: (pulse_ops cfg frame ++ [event_t.set_values 1 1]) ∧
    (line_ops (main cfg hw).2).length = 2 * frame.length + 2 ∧
    (∀ b ∈ frame, b = 0 ∨ b = 1) ∧
    (line_ops (main cfg hw).2)[0]? = some (event_t.set_values 1 1) ∧
    (∀ i b, frame[i]? = some b →
      (line_ops (main cfg hw).2)[2 * i + 1]?
        = some (event_t.set_value (if b = 0 then cfg.d0_line else cfg.d1_line) 0) ∧
      (line_ops (main cfg hw).2)[2 * i + 2]?
        = some (event_t.set_value (if b = 0 then cfg.d0_line else cfg.d1_line) 1)) ∧
    (line_ops (main cfg hw).2)[2 * frame.length + 1]? = some (event_t.set_values 1 1) ∧
    (cfg.d0_line ≠ cfg.d1_line → ∀ k,
      levels cfg.d0_line cfg.d1_line (1, 1) ((line_ops (main cfg hw).2).take k) ≠ (0, 0)) := by
  have hmain := main_no_failure cfg hw frame hfr hacq hset
  have hops : line_ops (main cfg hw).2 = expected_ops cfg frame := by
    rw [hmain]
    have hp := line_ops_pulse_events cfg frame
    unfold line_ops at hp ⊢
    simp only [List.filter_append, hp]
    simp [is_line_op, expected_ops]
  have hlen := pulse_ops_length cfg frame
  refine ⟨by rw [hmain], hops, ?_, ?_, ?_, ?_, ?_, ?_⟩
  · rw [hops]
    exact expected_ops_length cfg frame
  · intro b hb
    have := build_frame_bits cfg frame hfr b hb
    omega
  · rw [hops]
    simp [expected_ops]
  · intro i b h
    rw [hops]
    exact expected_ops_get cfg frame i b h
  · rw [hops]
    unfold expected_ops
    rw [List.getElem?_cons_succ, List.getElem?_append_right (by omega)]
    simp [hlen]
  · intro hne k
    rw [hops]
    exact expected_levels_take cfg hne frame k

/-- C14 at the raw bits `01` on lines 17 and 27: high/high, 17 low, 17 high,
27 low, 27 high, high/high. -/
theorem transmit_line_ops_witness :
    line_ops (main cfg_raw_01 hw_ok).2
      = [event_t.set_values 1 1, event_t.set_value 17 0, event_t.set_value 17 1,
          event_t.set_value 27 0, event_t.set_value 27 1, event_t.set_values 1 1] ∧
    (main cfg_raw_01 hw_ok).1 = Except.ok () ∧
    (line_ops (main cfg_raw_01 hw_ok).2).length = 2 * [0, 1].length + 2 :=
  ⟨by decide,
    (transmit_line_ops cfg_raw_01 hw_ok [0, 1] (by decide)
      ⟨rfl, rfl, rfl, rfl, rfl, rfl⟩ (fun _ _ => rfl)).1,
    (transmit_line_ops cfg_raw_01 hw_ok [0, 1] (by decide)
      ⟨rfl, rfl, rfl, rfl, rfl, rfl⟩ (fun _ _ => rfl)).2.2.1⟩

/-! ## A failing line operation -/

theorem release_not_mem_pulse_events (cfg : cfg_t) (frame : List Nat) :
    event_t.release ∉ pulse_events cfg frame := by
  induction frame with
  | nil => simp [pulse_events]
  | cons b rest ih => simp [pulse_events, ih]

theorem pulse_loop_fail (cfg : cfg_t) (hw : hw_t) : ∀ (frame : List Nat) (j k : Nat)
    (tr : List event_t), j < 2 * frame.length →
    (∀ i, i < j → hw.set_ok (k + i) = true) → hw.set_ok (k + j) = false →
    ∃ E m, pulse_loop cfg hw frame k tr = (die m, tr ++ E) ∧
      (m = "set low failed" ∨ m = "set high failed") ∧
      line_ops E = (pulse_ops cfg frame).take (j + 1) ∧
      E.getLast? = (pulse_ops cfg frame)[j]? ∧
      E ≠ [] ∧ event_t.release ∉ E := by
  intro frame
  induction frame with
  | nil => intro j k tr hj; simp at hj
  | cons b rest ih =>
    intro j k tr hj hbefore hfail
    unfold pulse_loop
    cases j with
    | zero =>
      have h0 : hw.set_ok k = false := by simpa using hfail
      refine ⟨[event_t.set_value (pulse_line cfg b) 0], "set low failed", ?_, Or.inl rfl, ?_, ?_,
        by simp, by simp⟩
      · simp [h0, pulse_line]
      · simp [line_ops, is_line_op, pulse_ops]
      · simp [pulse_ops]
    | succ j =>
      have h0 : hw.set_ok k = true := by
        have := hbefore 0 (by omega)
        simpa using this
      cases j with
      | zero =>
        have h1 : hw.set_ok (k + 1) = false := by simpa using hfail
        refine ⟨[event_t.set_value (pulse_line cfg b) 0, event_t.sleep_us cfg.pulse_us,
          event_t.set_value (pulse_line cfg b) 1], "set high failed", ?_, Or.inr rfl, ?_, ?_,
          by simp, by simp⟩
        · simp [h0, h1, pulse_line]
        · simp [line_ops, is_line_op, pulse_ops]
        · simp [pulse_ops]
      | succ j =>
        have h1 : hw.set_ok (k + 1) = true := hbefore 1 (by omega)
        have hj2 : j < 2 * rest.length := by
          simp only [List.length_cons] at hj
          omega
        have hb2 : ∀ i, i < j → hw.set_ok (k + 2 + i) = true := by
          intro i hi
          rw [show k + 2 + i = k + (i + 2) by omega]
          exact hbefore (i + 2) (by omega)
        have hf2 : hw.set_ok (k + 2 + j) = false := by
          rw [show k + 2 + j = k + (j + 1 + 1) by omega]
          exact hfail
        obtain ⟨E, m, hE, hm, hops, hlast, hne, hrel⟩ := ih j (k + 2)
          (tr ++ [event_t.set_value (pulse_line cfg b) 0]
            ++ [event_t.sleep_us cfg.pulse_us, event_t.set_value (pulse_line cfg b) 1]
            ++ [event_t.sleep_us cfg.space_us]) hj2 hb2 hf2
        refine ⟨[event_t.set_value (pulse_line cfg b) 0, event_t.sleep_us cfg.pulse_us,
          event_t.set_value (pulse_line cfg b) 1, event_t.sleep_us cfg.space_us] ++ E, m,
          ?_, hm, ?_, ?_, by simp, ?_⟩
        · simp only [h0, h1, Bool.not_true, Bool.false_eq_true, if_false]
          unfold pulse_line at hE
          rw [hE]
          simp [pulse_line]
        · unfold line_ops at hops ⊢
          simp only [List.filter_append, hops]
          simp [is_line_op, pulse_ops]
        · rw [List.getLast?_append_of_ne_nil _ hne, hlast]
          simp [pulse_ops]
        · simp [hrel]

theorem line_ops_no_failure (cfg : cfg_t) (frame : List Nat) :
    line_ops ([event_t.chip_open cfg.chip_name, event_t.request_lines cfg.d0_line cfg.d1_line,
        event_t.set_values 1 1, event_t.sleep_us 2000] ++ pulse_events cfg frame
        ++ [event_t.set_values 1 1]) = expected_ops cfg frame := by
  have hp := line_ops_pulse_events cfg frame
  unfold line_ops at hp ⊢
  simp only [List.filter_append, hp]
  simp [is_line_op, expected_ops]

/-- C19: when a line operation fails (operation number `j` of the run, the
earlier ones having succeeded), the run ends with a fatal error, the failing
operation is the last event of the trace (nothing is issued after it, no
restore and no release), and the operations issued are the first `j+1` of the
failure-free sequence. -/
theorem line_failure_halts (cfg : cfg_t) (hw : hw_t) (frame : List Nat)
    (hfr : build_frame cfg = Except.ok frame) (hacq : acquired hw) (j : Nat)
    (hj : j < 2 * frame.length + 2) (hbefore : ∀ i, i < j → hw.set_ok i = true)
    (hfail : hw.set_ok j = false) :
    (∃ m ∈ set_messages, (main cfg hw).1 = die m) ∧
    line_ops (main cfg hw).2 = (expected_ops cfg frame).take (j + 1) ∧
    line_ops (main cfg hw).2 <+: expected_ops cfg frame ∧
    (main cfg hw).2.getLast? = (expected_ops cfg frame)[j]? ∧
    (∃ op, (expected_ops cfg frame)[j]? = some op) ∧
    event_t.release ∉ (main cfg hw).2 ∧
    (j < 2 * frame.length + 1 → (line_ops (main cfg hw).2).length < 2 * frame.length + 2) ∧
    (∀ hw2, acquired hw2 → (∀ k, hw2.set_ok k = true) →
      line_ops (main cfg hw).2 <+: line_ops (main cfg hw2).2) := by
  have hlen := pulse_ops_length cfg frame
  have hcore : (∃ m ∈ set_messages, (main cfg hw).1 = die m) ∧
      line_ops (main cfg hw).2 = (expected_ops cfg frame).take (j + 1) ∧
      (main cfg hw).2.getLast? = (expected_ops cfg frame)[j]? ∧
      event_t.release ∉ (main cfg hw).2 := by
    rw [main_acquired cfg hw frame hfr hacq]
    cases j with
    | zero =>
      simp only [hfail, Bool.not_false, if_true]
      refine ⟨⟨"set idle high failed", by simp [set_messages], rfl⟩, ?_, ?_, ?_⟩
      · simp [line_ops, is_line_op, expected_ops]
      · simp [expected_ops]
      · simp
    | succ j =>
      have h0 : hw.set_ok 0 = true := hbefore 0 (by omega)
      simp only [h0, Bool.not_true, Bool.false_eq_true, if_false]
      by_cases hlt : j < 2 * frame.length
      · obtain ⟨E, m, hE, hm, hops, hlast, hne, hrel⟩ := pulse_loop_fail cfg hw frame j 1
          [event_t.chip_open cfg.chip_name, event_t.request_lines cfg.d0_line cfg.d1_line,
            event_t.set_values 1 1, event_t.sleep_us 2000] hlt
          (fun i hi => hbefore (1 + i) (by omega))
          (by rw [show 1 + j = j + 1 by omega]; exact hfail)
        rw [hE]
        simp only [die]
        refine ⟨⟨m, ?_, rfl⟩, ?_, ?_, ?_⟩
        · rcases hm with rfl | rfl <;> simp [set_messages]
        · unfold line_ops at hops ⊢
          simp only [List.filter_append, hops]
          unfold expected_ops
          rw [List.take_succ_cons, List.take_append_of_le_length (by omega)]
          simp [is_line_op]
        · rw [List.getLast?_append_of_ne_nil _ hne, hlast]
          unfold expected_ops
          rw [List.getElem?_cons_succ, List.getElem?_append_left (by omega)]
        · simp [hrel]
      · have hjeq : j = 2 * frame.length := by omega
        have hloop := pulse_loop_ok cfg hw frame 1
          [event_t.chip_open cfg.chip_name, event_t.request_lines cfg.d0_line cfg.d1_line,
            event_t.set_values 1 1, event_t.sleep_us 2000]
          (fun i hi => hbefore (1 + i) (by omega))
        have hlast : hw.set_ok (1 + 2 * frame.length) = false := by
          rw [show 1 + 2 * frame.length = j + 1 by omega]
          exact hfail
        simp only [hloop, hlast, Bool.not_false, if_true]
        refine ⟨⟨"restore high failed", by simp [set_messages], rfl⟩, ?_, ?_, ?_⟩
        · rw [line_ops_no_failure cfg frame, List.take_of_length_le]
          rw [expected_ops_length]
          omega
        · rw [List.getLast?_concat]
          unfold expected_ops
          rw [List.getElem?_cons_succ, List.getElem?_append_right (by omega)]
          simp [hlen, hjeq]
        · have := release_not_mem_pulse_events cfg frame
          simp [this]
  obtain ⟨h1, h2, h3, h4⟩ := hcore
  refine ⟨h1, h2, ?_, h3, ?_, h4, ?_, ?_⟩
  · rw [h2]
    exact List.take_prefix _ _
  · have hlt : j < (expected_ops cfg frame).length := by
      rw [expected_ops_length]
      exact hj
    exact ⟨(expected_ops cfg frame)[j], List.getElem?_eq_getElem hlt⟩
  · intro hjlt
    rw [h2, List.length_take, expected_ops_length]
    omega
  · intro hw2 hacq2 hall
    have hfull : line_ops (main cfg hw2).2 = expected_ops cfg frame := by
      rw [main_no_failure cfg hw2 frame hfr hacq2 (fun k _ => hall k)]
      have hnf := line_ops_no_failure cfg frame
      unfold line_ops at hnf ⊢
      rw [List.filter_append, hnf]
      simp [is_line_op]
    rw [hfull, h2]
    exact List.take_prefix _ _

/-- C19 at the raw bits `01` on lines 17 and 27 when the first set-high fails:
the trace ends with that operation. -/
theorem line_failure_halts_witness :
    main cfg_raw_01 hw_fail2
      = (die "set high failed",
          [event_t.chip_open "gpiochip0", event_t.request_lines 17 27, event_t.set_values 1 1,
            event_t.sleep_us 2000, event_t.set_value 17 0, event_t.sleep_us 50,
            event_t.set_value 17 1]) ∧
    line_ops (main cfg_raw_01 hw_fail2).2 = (expected_ops cfg_raw_01 [0, 1]).take (2 + 1) ∧
    event_t.release ∉ (main cfg_raw_01 hw_fail2).2 :=
  ⟨by decide,
    (line_failure_halts cfg_raw_01 hw_fail2 [0, 1] (by decide) ⟨rfl, rfl, rfl, rfl, rfl, rfl⟩ 2
      (by decide) (by decide) (by decide)).2.1,
    (line_failure_halts cfg_raw_01 hw_fail2 [0, 1] (by decide) ⟨rfl, rfl, rfl, rfl, rfl, rfl⟩ 2
      (by decide) (by decide) (by decide)).2.2.2.2.2.1⟩

/-! ## Width resolution -/

/-- C15, as the claim states it, fails: with `--facility-bits 10` alone the
facility width used is the preset 8 (facility 300 is rejected), and with
`--card-bits 20` alone the card width used is the preset 16. -/
theorem single_explicit_width_ignored :
    cfg_fbits10.facility_bits = 10 ∧ resolve_widths cfg_fbits10 = (8, 16) ∧
    cfg_fbits10.facility < 2 ^ 10 ∧
    main cfg_fbits10 hw_ok = (die "facility/card exceeds width", []) ∧
    cfg_cbits20.card_bits = 20 ∧ resolve_widths cfg_cbits20 = (8, 16) ∧
    cfg_cbits20.card < 2 ^ 20 ∧
    main cfg_cbits20 hw_ok = (die "facility/card exceeds width", []) := by
  decide

/-- C15, amended: in field mode with a supported format id the widths are the
explicit ones when both are supplied (both non-negative), and otherwise both
are the preset of the format id; the resolved widths are the ones the values
are checked against and the data bits are composed with, whatever
`frame_bits` and the parity mode are. -/
theorem widths_resolution (cfg : cfg_t)
    (hfmt : cfg.format_bits = 26 ∨ cfg.format_bits = 34 ∨ cfg.format_bits = 35
      ∨ cfg.format_bits = 37 ∨ cfg.format_bits = 48) :
    (0 ≤ cfg.facility_bits → 0 ≤ cfg.card_bits →
      resolve_widths cfg = (cfg.facility_bits, cfg.card_bits)) ∧
    (cfg.facility_bits < 0 ∨ cfg.card_bits < 0 →
      some (resolve_widths cfg) = format_preset cfg.format_bits) ∧
    (∀ fb cb : Nat, resolve_widths cfg = ((fb : Int), (cb : Int)) → cfg.raw_bits = none →
      fb ≤ 63 → cb ≤ 63 →
      (build_data cfg = die "facility/card exceeds width"
        ↔ (cfg.facility ≥ 2 ^ fb ∨ cfg.card ≥ 2 ^ cb)) ∧
      (cfg.facility < 2 ^ fb → cfg.card < 2 ^ cb →
        compose_fields cfg.facility fb cfg.card cb 512
          = Except.ok (field_cells cfg.facility fb cfg.card cb) ∧
        (field_cells cfg.facility fb cfg.card cb).length = fb + cb ∧
        build_data cfg =
          if cfg.parity = PAR_NONE ∧ cfg.frame_bits > 0 then
            if cfg.frame_bits < ((fb + cb : Nat) : Int) then die "frame-bits < data bits"
            else if cfg.frame_bits > ((fb + cb : Nat) : Int) then
              if cfg.frame_bits > 512 then die "frame-bits too large"
              else Except.ok
                (List.replicate (cfg.frame_bits - ((fb + cb : Nat) : Int)).toNat 0
                  ++ field_cells cfg.facility fb cfg.card cb)
            else Except.ok (field_cells cfg.facility fb cfg.card cb)
          else Except.ok (field_cells cfg.facility fb cfg.card cb))) := by
  refine ⟨?_, ?_, ?_⟩
  · intro h1 h2
    unfold resolve_widths
    simp only
    rw [if_neg (by omega)]
  · intro h
    unfold resolve_widths format_preset
    simp only
    rw [if_pos h]
    rcases hfmt with h | h | h | h | h <;> rw [h] <;> rfl
  · intro fb cb hres hraw hfb hcb
    refine ⟨build_data_width_check cfg hraw hfmt fb cb hres hfb hcb, ?_⟩
    intro hf hc
    exact ⟨compose_fields_eq _ _ _ _ (by omega), field_cells_length _ _ _ _,
      build_data_field cfg hraw hfmt fb cb hres hfb hcb hf hc⟩

/-- C15 amended, at format 26: both widths given (10 and 20) are used, also
with `--frame-bits 32`, and with none given the preset (8, 16) is used. -/
theorem widths_resolution_witness :
    resolve_widths cfg_both_bits = (10, 20) ∧
    some (resolve_widths cfg_lines) = format_preset 26 ∧
    resolve_widths cfg_lines = (8, 16) ∧
    build_data cfg_both_bits = Except.ok (field_cells 300 10 70000 20) ∧
    compose_fields cfg_both_bits.facility 10 cfg_both_bits.card 20 512
      = Except.ok (field_cells cfg_both_bits.facility 10 cfg_both_bits.card 20) ∧
    build_frame cfg_both_bits32 = Except.ok (std_frame (field_cells 300 10 70000 20)) ∧
    (build_data cfg_both_bits32 = die "facility/card exceeds width"
      ↔ (cfg_both_bits32.facility ≥ 2 ^ 10 ∨ cfg_both_bits32.card ≥ 2 ^ 20)) :=
  ⟨(widths_resolution cfg_both_bits (by decide)).1 (by decide) (by decide),
    (widths_resolution cfg_lines (by decide)).2.1 (Or.inl (by decide)),
    by decide,
    by decide,
    (((widths_resolution cfg_both_bits (by decide)).2.2 10 20 (by decide) rfl (by decide)
      (by decide)).2 (by decide) (by decide)).1,
    by decide,
    ((widths_resolution cfg_both_bits32 (by decide)).2.2 10 20 (by decide) rfl (by decide)
      (by decide)).1⟩

/-! ## Raw mode and the format id -/

theorem parse_hex_loop_exit (max : Nat) : ∀ (s : List Char) (bits : List Nat),
    (∃ out, parse_hex_loop max s bits = Except.ok out)
      ∨ parse_hex_loop max s bits = die "bad hex in raw"
      ∨ parse_hex_loop max s bits = die "raw hex too long" := by
  intro s
  induction s with
  | nil => intro bits; left; exact ⟨bits, rfl⟩
  | cons q rest ih =>
    intro bits
    unfold parse_hex_loop
    by_cases h1 : (!is_hex q) = true
    · right; left; rw [if_pos h1]
    · rw [if_neg h1]
      by_cases h2 : bits.length + 4 > max
      · right; right; rw [if_pos h2]
      · rw [if_neg h2]
        exact ih _

theorem parse_bin_loop_exit (max : Nat) : ∀ (s : List Char) (bits : List Nat),
    (∃ out, parse_bin_loop max s bits = Except.ok out)
      ∨ parse_bin_loop max s bits = die "raw bits too long"
      ∨ parse_bin_loop max s bits = die "invalid char in raw bits" := by
  intro s
  induction s with
  | nil => intro bits; left; exact ⟨bits, rfl⟩
  | cons p rest ih =>
    intro bits
    unfold parse_bin_loop
    by_cases h1 : p = '0' ∨ p = '1'
    · rw [if_pos h1]
      by_cases h2 : bits.length ≥ max
      · right; left; rw [if_pos h2]
      · rw [if_neg h2]
        exact ih _
    · rw [if_neg h1]
      by_cases h3 : p = ' ' ∨ p = '_'
      · rw [if_pos h3]
        exact ih _
      · right; right; rw [if_neg h3]

theorem parse_raw_bits_exit (max : Nat) (raw : Option (List Char)) :
    (∃ out, parse_raw_bits raw max = Except.ok out)
      ∨ ∃ m ∈ raw_messages, parse_raw_bits raw max = die m := by
  unfold parse_raw_bits
  split
  · left; exact ⟨[], rfl⟩
  · split_ifs
    · right; exact ⟨"empty hex", by simp [raw_messages], rfl⟩
    · rcases parse_hex_loop_exit max _ [] with h | h | h
      · left; exact h
      · right; exact ⟨_, by simp [raw_messages], h⟩
      · right; exact ⟨_, by simp [raw_messages], h⟩
  · split_ifs
    · right; exact ⟨"empty hex", by simp [raw_messages], rfl⟩
    · rcases parse_hex_loop_exit max _ [] with h | h | h
      · left; exact h
      · right; exact ⟨_, by simp [raw_messages], h⟩
      · right; exact ⟨_, by simp [raw_messages], h⟩
  · rcases parse_bin_loop_exit max _ [] with h | h | h
    · left; exact h
    · right; exact ⟨_, by simp [raw_messages], h⟩
    · right; exact ⟨_, by simp [raw_messages], h⟩

theorem apply_parity_exit (data : List Nat) (mode : parity_mode_t) (max : Nat) :
    (∃ frame, apply_parity data mode max = Except.ok frame)
      ∨ apply_parity data mode max = die "buffer small" := by
  unfold apply_parity
  simp only
  split_ifs
  all_goals first
    | (right; rfl)
    | (left; exact ⟨_, rfl⟩)

theorem check_cfg_exit (cfg : cfg_t) :
    check_cfg cfg = Except.ok () ∨ check_cfg cfg = Except.error exit_t.usage
      ∨ ∃ m ∈ raw_messages, check_cfg cfg = die m := by
  unfold check_cfg
  split_ifs
  · right; left; rfl
  · right; right; exact ⟨_, by simp [raw_messages], rfl⟩
  · right; right; exact ⟨_, by simp [raw_messages], rfl⟩
  · left; rfl

/-- The ways a run in raw mode can end before the first device call. -/
theorem build_frame_raw_exit (cfg : cfg_t) (raw : List Char) (hraw : cfg.raw_bits = some raw) :
    (∃ frame, build_frame cfg = Except.ok frame)
      ∨ build_frame cfg = Except.error exit_t.usage
      ∨ ∃ m ∈ raw_messages, build_frame cfg = die m := by
  have hdata : build_data cfg = parse_raw_bits (some raw) 512 := by
    unfold build_data
    rw [hraw]
  unfold build_frame
  rcases check_cfg_exit cfg with hc | hc | ⟨m, hm, hc⟩
  · rw [hc, hdata]
    simp only
    rcases parse_raw_bits_exit 512 (some raw) with ⟨out, hp⟩ | ⟨m, hm, hp⟩
    · rw [hp]
      simp only
      rcases apply_parity_exit out cfg.parity 520 with ⟨frame, ha⟩ | ha
      · rw [ha]
        simp only
        split_ifs
        · right; right; exact ⟨_, by simp [raw_messages], rfl⟩
        · left; exact ⟨frame, rfl⟩
      · rw [ha]
        right; right; exact ⟨_, by simp [raw_messages], rfl⟩
    · rw [hp]
      right; right; exact ⟨m, hm, rfl⟩
  · rw [hc]
    right; left; rfl
  · rw [hc]
    right; right; exact ⟨m, hm, rfl⟩

theorem not_unsupported_message :
    (∀ m ∈ raw_messages, m ≠ "unsupported format")
      ∧ (∀ m ∈ hw_messages, m ≠ "unsupported format") := by
  decide

/-- In raw mode the frame stage reads only the literal, the parity mode,
`frame_bits`, the line offsets and the timing. -/
theorem build_frame_raw_congr (c1 c2 : cfg_t) (raw : List Char)
    (h1 : c1.raw_bits = some raw) (h2 : c2.raw_bits = some raw)
    (hpar : c1.parity = c2.parity) (hfb : c1.frame_bits = c2.frame_bits)
    (hd0 : c1.d0_line = c2.d0_line) (hd1 : c1.d1_line = c2.d1_line)
    (hpu : c1.pulse_us = c2.pulse_us) (hsp : c1.space_us = c2.space_us) :
    build_frame c1 = build_frame c2 := by
  have hck : check_cfg c1 = check_cfg c2 := by
    unfold check_cfg
    rw [hd0, hd1, hpu, hsp]
  have hdata : build_data c1 = build_data c2 := by
    unfold build_data
    rw [h1, h2]
  unfold build_frame
  rw [hck, hdata, hpar, hfb]

/-- C16, as the claim states it, fails: with explicit widths 8 and 16 and the
format id 40 the run still ends with `unsupported format`. -/
theorem explicit_widths_unsupported_format :
    cfg_fmt40.facility_bits = 8 ∧ cfg_fmt40.card_bits = 16 ∧ cfg_fmt40.raw_bits = none ∧
    main cfg_fmt40 hw_ok = (die "unsupported format", []) := by
  decide

/-- C16, amended: once the offsets and the timing are accepted, a format id
outside {26, 34, 35, 37, 48} ends the run with `unsupported format` exactly
when no raw-bit literal is supplied, whether or not explicit widths are given;
with raw bits the format id is not read and the run is the one of format 26. -/
theorem unsupported_format_iff (cfg : cfg_t) (hck : check_cfg cfg = Except.ok ())
    (hfmt : ¬ (cfg.format_bits = 26 ∨ cfg.format_bits = 34 ∨ cfg.format_bits = 35
      ∨ cfg.format_bits = 37 ∨ cfg.format_bits = 48)) :
    (∀ hw, (main cfg hw).1 = die "unsupported format" ↔ cfg.raw_bits = none) ∧
    (cfg.raw_bits = none → ∀ hw, main cfg hw = (die "unsupported format", [])) ∧
    (∀ raw, cfg.raw_bits = some raw →
      build_frame cfg = build_frame { cfg with format_bits := 26 }) := by
  have hnone : cfg.raw_bits = none → build_frame cfg = die "unsupported format" := by
    intro hraw
    unfold build_frame
    rw [hck]
    simp only
    unfold build_data
    rw [hraw]
    simp only
    rw [if_pos hfmt]
    rfl
  have hsome : ∀ raw hw, cfg.raw_bits = some raw → (main cfg hw).1 ≠ die "unsupported format" := by
    intro raw hw hraw hm
    rcases build_frame_raw_exit cfg raw hraw with ⟨frame, hb⟩ | hb | ⟨m, hmem, hb⟩
    · rcases main_exit_of_frame cfg hw frame hb with h | ⟨m, hmem, h⟩
      · rw [h] at hm
        simp [die] at hm
      · rw [h] at hm
        simp only [die, Except.error.injEq, exit_t.die.injEq] at hm
        exact not_unsupported_message.2 m hmem hm
    · rw [main_of_build_frame_error cfg hw _ hb] at hm
      simp [die] at hm
    · rw [main_of_build_frame_error cfg hw _ hb] at hm
      simp only [die, Except.error.injEq, exit_t.die.injEq] at hm
      exact not_unsupported_message.1 m hmem hm
  refine ⟨?_, ?_, ?_⟩
  · intro hw
    constructor
    · intro hm
      cases hraw : cfg.raw_bits with
      | none => rfl
      | some raw => exact absurd hm (hsome raw hw hraw)
    · intro hraw
      rw [main_of_build_frame_error cfg hw _ (hnone hraw)]
      rfl
  · intro hraw hw
    exact main_of_build_frame_error cfg hw _ (hnone hraw)
  · intro raw hraw
    exact build_frame_raw_congr cfg { cfg with format_bits := 26 } raw hraw hraw rfl rfl rfl rfl
      rfl rfl

/-- C16 amended, at the format id 40: without raw bits the run is fatal, with
the raw bits `0xA5` the frame is built. -/
theorem unsupported_format_iff_witness :
    main cfg_fmt40 hw_ok = (die "unsupported format", []) ∧
    (main cfg_fmt40_raw hw_ok).1 ≠ die "unsupported format" ∧
    build_frame cfg_fmt40_raw = Except.ok [1, 1, 0, 1, 0, 0, 1, 0, 1, 0] :=
  ⟨(unsupported_format_iff cfg_fmt40 (by decide) (by decide)).2.1 rfl hw_ok,
    fun h => absurd (((unsupported_format_iff cfg_fmt40_raw (by decide) (by decide)).1 hw_ok).mp h)
      (by decide),
    by decide⟩

theorem pulse_loop_congr (c1 c2 : cfg_t) (hw : hw_t) (hd0 : c1.d0_line = c2.d0_line)
    (hd1 : c1.d1_line = c2.d1_line) (hpu : c1.pulse_us = c2.pulse_us)
    (hsp : c1.space_us = c2.space_us) : ∀ (frame : List Nat) (k : Nat) (tr : List event_t),
    pulse_loop c1 hw frame k tr = pulse_loop c2 hw frame k tr := by
  intro frame
  induction frame with
  | nil => intro k tr; rfl
  | cons b rest ih =>
    intro k tr
    unfold pulse_loop
    simp only [hd0, hd1, hpu, hsp, ih]

/-- C17: two configurations with the same raw-bit literal, parity mode,
`frame_bits`, line offsets and timing have the same outcome, whatever their
format id, facility, card, `facility_bits` and `card_bits`: the same error or
the same frame, and for the same chip the same run. -/
theorem raw_mode_independent (c1 c2 : cfg_t) (raw : List Char)
    (h1 : c1.raw_bits = some raw) (h2 : c2.raw_bits = some raw)
    (hpar : c1.parity = c2.parity) (hfb : c1.frame_bits = c2.frame_bits)
    (hd0 : c1.d0_line = c2.d0_line) (hd1 : c1.d1_line = c2.d1_line)
    (hpu : c1.pulse_us = c2.pulse_us) (hsp : c1.space_us = c2.space_us) :
    build_frame c1 = build_frame c2 ∧
    (∀ e, build_frame c1 = Except.error e ↔ build_frame c2 = Except.error e) ∧
    (∀ frame, build_frame c1 = Except.ok frame ↔ build_frame c2 = Except.ok frame) ∧
    (c1.chip_name = c2.chip_name → ∀ hw, main c1 hw = main c2 hw) := by
  have hb := build_frame_raw_congr c1 c2 raw h1 h2 hpar hfb hd0 hd1 hpu hsp
  refine ⟨hb, fun e => by rw [hb], fun frame => by rw [hb], ?_⟩
  intro hchip hw
  unfold main
  rw [hb, hchip, hd0, hd1]
  simp only [pulse_loop_congr c1 c2 hw hd0 hd1 hpu hsp]

/-- C17 at the raw bits `0xA5`: format 99, facility 7, card 9 and widths 3, 4
give the same frame as the default field options. -/
theorem raw_mode_independent_witness :
    build_frame cfg_raw_other = build_frame cfg_raw_std ∧
    build_frame cfg_raw_std = Except.ok [1, 1, 0, 1, 0, 0, 1, 0, 1, 0] ∧
    main cfg_raw_other hw_ok = main cfg_raw_std hw_ok :=
  ⟨(raw_mode_independent cfg_raw_other cfg_raw_std "0xA5".toList rfl rfl rfl rfl rfl rfl rfl
      rfl).1,
    by decide,
    (raw_mode_independent cfg_raw_other cfg_raw_std "0xA5".toList rfl rfl rfl rfl rfl rfl rfl
      rfl).2.2.2 rfl hw_ok⟩

/-! ## Capacity -/

theorem apply_parity_std_eq (d : List Nat) (hlen : d.length + 2 ≤ 520) :
    apply_parity d PAR_STD 520 = Except.ok (std_frame d) := by
  unfold apply_parity
  simp only [reduceCtorEq, if_false, or_self]
  rw [if_neg (by omega)]
  rfl

theorem std_frame_length (d : List Nat) : (std_frame d).length = d.length + 2 := by
  simp [std_frame]

theorem format_preset_some (N : Int) (fb cb : Nat)
    (h : format_preset N = some ((fb : Int), (cb : Int))) :
    (N = 26 ∧ fb = 8 ∧ cb = 16) ∨ (N = 34 ∧ fb = 16 ∧ cb = 16) ∨ (N = 37 ∧ fb = 18 ∧ cb = 16)
      ∨ (N = 35 ∧ fb = 19 ∧ cb = 16) ∨ (N = 48 ∧ fb = 16 ∧ cb = 30) := by
  unfold format_preset at h
  split_ifs at h with h1 h2 h3 h4 h5
  all_goals simp only [Option.some.injEq, Prod.mk.injEq] at h
  all_goals omega

/-- The frame stage in field mode with Standard parity once the width check
has passed. -/
theorem build_frame_field_std (cfg : cfg_t) (hraw : cfg.raw_bits = none)
    (hfmt : cfg.format_bits = 26 ∨ cfg.format_bits = 34 ∨ cfg.format_bits = 35
      ∨ cfg.format_bits = 37 ∨ cfg.format_bits = 48)
    (fb cb : Nat) (hres : resolve_widths cfg = ((fb : Int), (cb : Int)))
    (hfb : fb ≤ 63) (hcb : cb ≤ 63) (hf : cfg.facility < 2 ^ fb) (hc : cfg.card < 2 ^ cb)
    (hpar : cfg.parity = PAR_STD) (hck : check_cfg cfg = Except.ok ()) :
    build_frame cfg =
      if cfg.frame_bits > 0 ∧ cfg.frame_bits ≠ ((fb + cb + 2 : Nat) : Int) then
        die "frame-bits mismatch"
      else Except.ok (std_frame (field_cells cfg.facility fb cfg.card cb)) := by
  have hdata := build_data_field cfg hraw hfmt fb cb hres hfb hcb hf hc
  rw [if_neg (by rw [hpar]; simp)] at hdata
  unfold build_frame
  rw [hck]
  simp only
  rw [hdata]
  simp only
  rw [hpar, apply_parity_std_eq _ (by rw [field_cells_length]; omega)]
  simp only [std_frame_length, field_cells_length]

/-- C20: in field mode with the preset widths `fb, cb` of the format id,
in-range values and Standard parity, the frame has `fb+cb+2` bits when no
`frame_bits` is given: the format id for 26, 34 and 48, but 37 for format 35
and 36 for format 37; so `frame_bits` equal to the format id is accepted for
26, 34 and 48, and is `frame-bits mismatch` for 35 and 37. -/
theorem preset_frame_length (cfg : cfg_t) (hraw : cfg.raw_bits = none)
    (hpre : cfg.facility_bits < 0 ∨ cfg.card_bits < 0) (hpar : cfg.parity = PAR_STD)
    (hck : check_cfg cfg = Except.ok ()) (fb cb : Nat)
    (hfmt : format_preset cfg.format_bits = some ((fb : Int), (cb : Int)))
    (hf : cfg.facility < 2 ^ fb) (hc : cfg.card < 2 ^ cb) :
    (cfg.frame_bits ≤ 0 →
      ∃ frame, build_frame cfg = Except.ok frame ∧ frame.length = fb + cb + 2) ∧
    (cfg.format_bits = 26 ∨ cfg.format_bits = 34 ∨ cfg.format_bits = 48 →
      ((fb + cb + 2 : Nat) : Int) = cfg.format_bits) ∧
    (cfg.format_bits = 35 → fb + cb + 2 = 37) ∧
    (cfg.format_bits = 37 → fb + cb + 2 = 36) ∧
    (cfg.frame_bits = cfg.format_bits →
      cfg.format_bits = 26 ∨ cfg.format_bits = 34 ∨ cfg.format_bits = 48 →
      ∃ frame, build_frame cfg = Except.ok frame ∧ (frame.length : Int) = cfg.format_bits) ∧
    (cfg.frame_bits = cfg.format_bits → cfg.format_bits = 35 ∨ cfg.format_bits = 37 →
      build_frame cfg = die "frame-bits mismatch" ∧
      ∀ hw, main cfg hw = (die "frame-bits mismatch", [])) := by
  have hcases := format_preset_some cfg.format_bits fb cb hfmt
  have hsup : cfg.format_bits = 26 ∨ cfg.format_bits = 34 ∨ cfg.format_bits = 35
      ∨ cfg.format_bits = 37 ∨ cfg.format_bits = 48 := by omega
  have hres : resolve_widths cfg = ((fb : Int), (cb : Int)) := by
    have hsome : some (resolve_widths cfg) = format_preset cfg.format_bits := by
      unfold resolve_widths format_preset
      simp only
      rw [if_pos hpre]
      rcases hsup with h | h | h | h | h <;> rw [h] <;> rfl
    rw [hfmt] at hsome
    exact Option.some.inj hsome
  have hfb : fb ≤ 63 := by omega
  have hcb : cb ≤ 63 := by omega
  have hframe := build_frame_field_std cfg hraw hsup fb cb hres hfb hcb hf hc hpar hck
  have hlen : (std_frame (field_cells cfg.facility fb cfg.card cb)).length = fb + cb + 2 := by
    rw [std_frame_length, field_cells_length]
  refine ⟨?_, ?_, ?_, ?_, ?_, ?_⟩
  · intro hbits
    refine ⟨_, ?_, hlen⟩
    rw [hframe, if_neg]
    intro h
    omega
  · intro h
    omega
  · intro h
    omega
  · intro h
    omega
  · intro hbits h
    refine ⟨_, ?_, by rw [hlen]; omega⟩
    rw [hframe, if_neg]
    intro hc2
    omega
  · intro hbits h
    have hb : build_frame cfg = die "frame-bits mismatch" := by
      rw [hframe, if_pos]
      constructor <;> omega
    exact ⟨hb, fun hw => main_of_build_frame_error cfg hw _ hb⟩

/-- C20 at the formats 34 (accepted with `--frame-bits 34`), 35 and 37
(rejected with `--frame-bits` equal to the format id; 37 bits without it). -/
theorem preset_frame_length_witness :
    (∃ frame, build_frame cfg_fmt34 = Except.ok frame ∧ (frame.length : Int) = 34) ∧
    main cfg_fmt35 hw_ok = (die "frame-bits mismatch", []) ∧
    main cfg_fmt37 hw_ok = (die "frame-bits mismatch", []) ∧
    (∃ frame, build_frame cfg_fmt35_free = Except.ok frame ∧ frame.length = 19 + 16 + 2) :=
  ⟨(preset_frame_length cfg_fmt34 rfl (Or.inl (by decide)) rfl (by decide) 16 16 (by decide)
      (by decide) (by decide)).2.2.2.2.1 (by decide) (Or.inr (Or.inl (by decide))),
    ((preset_frame_length cfg_fmt35 rfl (Or.inl (by decide)) rfl (by decide) 19 16 (by decide)
      (by decide) (by decide)).2.2.2.2.2 (by decide) (Or.inl (by decide))).2 hw_ok,
    ((preset_frame_length cfg_fmt37 rfl (Or.inl (by decide)) rfl (by decide) 18 16 (by decide)
      (by decide) (by decide)).2.2.2.2.2 (by decide) (Or.inr (by decide))).2 hw_ok,
    (preset_frame_length cfg_fmt35_free rfl (Or.inl (by decide)) rfl (by decide) 19 16
      (by decide) (by decide) (by decide)).1 (by decide)⟩

/-! ## Stores stay inside the arrays -/

end WiegandTx
